import Mathlib

/-!
Verification development for the `hermes_dec` decompiler (Hermes bytecode v93).

The definitions below are a shallow embedding of the Rust sources:
  * `src/help_macros/src/lib.rs` — the `ByteCodeInstructions` derive macro, which generates
    `get_bytecode_size` and `read_opcode` for the v93 instruction enum;
  * `src/hermes_dec/src/hermes_file_reader.rs` — the per-function disassembly loop and
    `BytecodeFile::get_string`;
  * `src/hermes_dec/src/graphs.rs` — `construct_flow_graph`, `get_instruction_by_offset`
    and `construct_cfg`;
  * `src/hermes_dec/src/generate_ast.rs` — the instruction-to-statement lowering arms for
    the constant-boolean opcodes.

Machine integers are modelled as `Nat`/`Int`; a Rust panic or `unwrap` failure is modelled
as `none` (or an explicit error value), and byte streams as `List Nat` of values below 256.
-/

namespace HermesDec

/-! ## Operand field types and the byte-level decoder

The `ByteCodeInstructions` derive macro (`src/help_macros/src/lib.rs`) walks the variants of
the v93 `Instruction` enum in declaration order.  For variant number `i` it emits a
`get_bytecode_size` arm mapping opcode `i` to the sum of its field widths, and a
`read_opcode` arm that reads one field after another (little-endian) from the reader.
The supported Rust field types are `u8`, `i8`, `u16`, `i32`, `u32`, `f64` and `bool`. -/

/-- Operand field types accepted by the derive macro in `src/help_macros/src/lib.rs`. -/
inductive FieldTy where
  | u8
  | i8
  | u16
  | i32
  | u32
  | f64
  | bool
deriving DecidableEq

/-- Field widths in bytes, from the `get_bytecode_size` arm of the derive macro
(`u8`/`i8`/`bool` are 1 byte, `u16` 2, `i32`/`u32` 4, `f64` 8). -/
def fieldSize : FieldTy → Nat
  | .u8 => 1
  | .i8 => 1
  | .u16 => 2
  | .i32 => 4
  | .u32 => 4
  | .f64 => 8
  | .bool => 1

/-- A decoded operand value: unsigned integers, signed integers, the raw bit pattern of an
`f64`, or a boolean. -/
inductive FieldVal where
  | uv (n : Nat)
  | iv (i : Int)
  | fv (bits : Nat)
  | bv (b : Bool)
deriving DecidableEq

/-- Decoder failures.  `read_opcode` panics on an unknown opcode byte with a message that
interpolates only the opcode value (`src/help_macros/src/lib.rs`), and every operand read
`unwrap`s an `std::io` error, which can only be an end-of-buffer short read here. -/
inductive DecodeErr where
  | unhandledOpcode (opcode : Nat)
  | shortRead
deriving DecidableEq

/-- Two's-complement reading of one byte as an `i8`. -/
def i8_of_byte (b : Nat) : Int :=
  if b < 128 then (b : Int) else (b : Int) - 256

/-- Two's-complement reading of a little-endian 32-bit value as an `i32`. -/
def i32_of_u32 (n : Nat) : Int :=
  if n < 2 ^ 31 then (n : Int) else (n : Int) - 2 ^ 32

/-- Read one operand field from the byte stream, as generated by the derive macro:
one byte for `u8`/`i8`/`bool`, two little-endian bytes for `u16`, four for `u32`/`i32`,
eight for `f64`.  A `bool` operand decodes to `true` exactly when its byte is `0`
(`reader.read_u8().unwrap() == 0` in the macro).  Reading past the end of the buffer is the
source's `unwrap` panic, modelled as `.error .shortRead`. -/
def readField : FieldTy → List Nat → Except DecodeErr (FieldVal × List Nat)
  | .u8, b :: r => .ok (.uv b, r)
  | .i8, b :: r => .ok (.iv (i8_of_byte b), r)
  | .bool, b :: r => .ok (.bv (b == 0), r)
  | .u16, b0 :: b1 :: r => .ok (.uv (b0 + 2 ^ 8 * b1), r)
  | .u32, b0 :: b1 :: b2 :: b3 :: r =>
      .ok (.uv (b0 + 2 ^ 8 * b1 + 2 ^ 16 * b2 + 2 ^ 24 * b3), r)
  | .i32, b0 :: b1 :: b2 :: b3 :: r =>
      .ok (.iv (i32_of_u32 (b0 + 2 ^ 8 * b1 + 2 ^ 16 * b2 + 2 ^ 24 * b3)), r)
  | .f64, b0 :: b1 :: b2 :: b3 :: b4 :: b5 :: b6 :: b7 :: r =>
      .ok (.fv (b0 + 2 ^ 8 * b1 + 2 ^ 16 * b2 + 2 ^ 24 * b3 + 2 ^ 32 * b4 + 2 ^ 40 * b5
        + 2 ^ 48 * b6 + 2 ^ 56 * b7), r)
  | _, _ => .error .shortRead

/-- Read the declared operand fields of one opcode in order, as the generated
`read_opcode` arm does. -/
def readFields : List FieldTy → List Nat → Except DecodeErr (List FieldVal × List Nat)
  | [], bs => .ok ([], bs)
  | t :: ts, bs =>
      match readField t bs with
      | .error e => .error e
      | .ok (v, bs1) =>
          match readFields ts bs1 with
          | .error e => .error e
          | .ok (vs, bs2) => .ok (v :: vs, bs2)

/-- Rows 0 to 50 of the operand layout table (see `opcodeTable`). -/
def opcodeTable0 : List (List FieldTy) :=
  [
    [], -- Unreachable
    [FieldTy.u8, FieldTy.u16, FieldTy.u16, FieldTy.u16, FieldTy.u16], -- NewObjectWithBuffer
    [FieldTy.u8, FieldTy.u16, FieldTy.u16, FieldTy.u32, FieldTy.u32], -- NewObjectWithBufferLong
    [FieldTy.u8], -- NewObject
    [FieldTy.u8, FieldTy.u8], -- NewObjectWithParent
    [FieldTy.u8, FieldTy.u16, FieldTy.u16, FieldTy.u16], -- NewArrayWithBuffer
    [FieldTy.u8, FieldTy.u16, FieldTy.u16, FieldTy.u32], -- NewArrayWithBufferLong
    [FieldTy.u8, FieldTy.u16], -- NewArray
    [FieldTy.u8, FieldTy.u8], -- Mov
    [FieldTy.u32, FieldTy.u32], -- MovLong
    [FieldTy.u8, FieldTy.u8], -- Negate
    [FieldTy.u8, FieldTy.u8], -- Not
    [FieldTy.u8, FieldTy.u8], -- BitNot
    [FieldTy.u8, FieldTy.u8], -- TypeOf
    [FieldTy.u8, FieldTy.u8, FieldTy.u8], -- Eq
    [FieldTy.u8, FieldTy.u8, FieldTy.u8], -- StrictEq
    [FieldTy.u8, FieldTy.u8, FieldTy.u8], -- Neq
    [FieldTy.u8, FieldTy.u8, FieldTy.u8], -- StrictNeq
    [FieldTy.u8, FieldTy.u8, FieldTy.u8], -- Less
    [FieldTy.u8, FieldTy.u8, FieldTy.u8], -- LessEq
    [FieldTy.u8, FieldTy.u8, FieldTy.u8], -- Greater
    [FieldTy.u8, FieldTy.u8, FieldTy.u8], -- GreaterEq
    [FieldTy.u8, FieldTy.u8, FieldTy.u8], -- Add
    [FieldTy.u8, FieldTy.u8, FieldTy.u8], -- AddN
    [FieldTy.u8, FieldTy.u8, FieldTy.u8], -- Mul
    [FieldTy.u8, FieldTy.u8, FieldTy.u8], -- MulN
    [FieldTy.u8, FieldTy.u8, FieldTy.u8], -- Div
    [FieldTy.u8, FieldTy.u8, FieldTy.u8], -- DivN
    [FieldTy.u8, FieldTy.u8, FieldTy.u8], -- Mod
    [FieldTy.u8, FieldTy.u8, FieldTy.u8], -- Sub
    [FieldTy.u8, FieldTy.u8, FieldTy.u8], -- SubN
    [FieldTy.u8, FieldTy.u8, FieldTy.u8], -- LShift
    [FieldTy.u8, FieldTy.u8, FieldTy.u8], -- RShift
    [FieldTy.u8, FieldTy.u8, FieldTy.u8], -- URshift
    [FieldTy.u8, FieldTy.u8, FieldTy.u8], -- BitAnd
    [FieldTy.u8, FieldTy.u8, FieldTy.u8], -- BitXor
    [FieldTy.u8, FieldTy.u8, FieldTy.u8], -- BitOr
    [FieldTy.u8, FieldTy.u8], -- Inc
    [FieldTy.u8, FieldTy.u8], -- Dec
    [FieldTy.u8, FieldTy.u8, FieldTy.u8], -- InstanceOf
    [FieldTy.u8, FieldTy.u8, FieldTy.u8], -- IsIn
    [FieldTy.u8, FieldTy.u8], -- GetEnvironment
    [FieldTy.u8, FieldTy.u8, FieldTy.u8], -- StoreToEnvironment
    [FieldTy.u8, FieldTy.u16, FieldTy.u8], -- StoreToEnvironmentL
    [FieldTy.u8, FieldTy.u8, FieldTy.u8], -- StoreNPToEnvironment
    [FieldTy.u8, FieldTy.u16, FieldTy.u8], -- StoreNPToEnvironmentL
    [FieldTy.u8, FieldTy.u8, FieldTy.u8], -- LoadFromEnvironment
    [FieldTy.u8, FieldTy.u8, FieldTy.u16], -- LoadFromEnvironmentL
    [FieldTy.u8], -- GetGlobalObject
    [FieldTy.u8], -- GetNewTarget
    [FieldTy.u8] -- CreateEnvironment
  ]

/-- Rows 51 to 101 of the operand layout table (see `opcodeTable`). -/
def opcodeTable1 : List (List FieldTy) :=
  [
    [FieldTy.u32], -- DeclareGlobalVar
    [FieldTy.u8, FieldTy.u8, FieldTy.u8, FieldTy.u8], -- GetByIdShort
    [FieldTy.u8, FieldTy.u8, FieldTy.u8, FieldTy.u16], -- GetById
    [FieldTy.u8, FieldTy.u8, FieldTy.u8, FieldTy.u32], -- GetByIdLong
    [FieldTy.u8, FieldTy.u8, FieldTy.u8, FieldTy.u16], -- TryGetById
    [FieldTy.u8, FieldTy.u8, FieldTy.u8, FieldTy.u32], -- TryGetByIdLong
    [FieldTy.u8, FieldTy.u8, FieldTy.u8, FieldTy.u16], -- PutById
    [FieldTy.u8, FieldTy.u8, FieldTy.u8, FieldTy.u32], -- PutByIdLong
    [FieldTy.u8, FieldTy.u8, FieldTy.u8, FieldTy.u16], -- TryPutById
    [FieldTy.u8, FieldTy.u8, FieldTy.u8, FieldTy.u32], -- TryPutByIdLong
    [FieldTy.u8, FieldTy.u8, FieldTy.u8], -- PutNewOwnByIdShort
    [FieldTy.u8, FieldTy.u8, FieldTy.u16], -- PutNewOwnById
    [FieldTy.u8, FieldTy.u8, FieldTy.u32], -- PutNewOwnByIdLong
    [FieldTy.u8, FieldTy.u8, FieldTy.u16], -- PutNewOwnNEById
    [FieldTy.u8, FieldTy.u8, FieldTy.u32], -- PutNewOwnNEByIdLong
    [FieldTy.u8, FieldTy.u8, FieldTy.u8], -- PutOwnByIndex
    [FieldTy.u8, FieldTy.u8, FieldTy.u32], -- PutOwnByIndexL
    [FieldTy.u8, FieldTy.u8, FieldTy.u8, FieldTy.bool], -- PutOwnByVal
    [FieldTy.u8, FieldTy.u8, FieldTy.u16], -- DelById
    [FieldTy.u8, FieldTy.u8, FieldTy.u32], -- DelByIdLong
    [FieldTy.u8, FieldTy.u8, FieldTy.u8], -- GetByVal
    [FieldTy.u8, FieldTy.u8, FieldTy.u8], -- PutByVal
    [FieldTy.u8, FieldTy.u8, FieldTy.u8], -- DelByVal
    [FieldTy.u8, FieldTy.u8, FieldTy.u8, FieldTy.u8, FieldTy.bool], -- PutOwnGetterSetterByVal
    [FieldTy.u8, FieldTy.u8, FieldTy.u8, FieldTy.u8], -- GetPNameList
    [FieldTy.u8, FieldTy.u8, FieldTy.u8, FieldTy.u8, FieldTy.u8], -- GetNextPName
    [FieldTy.u8, FieldTy.u8, FieldTy.u8], -- Call
    [FieldTy.u8, FieldTy.u8, FieldTy.u8], -- Construct
    [FieldTy.u8, FieldTy.u8, FieldTy.u8], -- Call1
    [FieldTy.u8, FieldTy.u8, FieldTy.u16], -- CallDirect
    [FieldTy.u8, FieldTy.u8, FieldTy.u8, FieldTy.u8], -- Call2
    [FieldTy.u8, FieldTy.u8, FieldTy.u8, FieldTy.u8, FieldTy.u8], -- Call3
    [FieldTy.u8, FieldTy.u8, FieldTy.u8, FieldTy.u8, FieldTy.u8, FieldTy.u8], -- Call4
    [FieldTy.u8, FieldTy.u8, FieldTy.u32], -- CallLong
    [FieldTy.u8, FieldTy.u8, FieldTy.u32], -- ConstructLong
    [FieldTy.u8, FieldTy.u8, FieldTy.u32], -- CallDirectLongIndex
    [FieldTy.u8, FieldTy.u8, FieldTy.u8], -- CallBuiltin
    [FieldTy.u8, FieldTy.u8, FieldTy.u32], -- CallBuiltinLong
    [FieldTy.u8, FieldTy.u8], -- GetBuiltinClosure
    [FieldTy.u8], -- Ret
    [FieldTy.u8], -- Catch
    [FieldTy.u8, FieldTy.u8], -- DirectEval
    [FieldTy.u8], -- Throw
    [FieldTy.u8, FieldTy.u8], -- ThrowIfEmpty
    [], -- Debugger
    [], -- AsyncBreakCheck
    [FieldTy.u16], -- ProfilePoint
    [FieldTy.u8, FieldTy.u8, FieldTy.u16], -- CreateClosure
    [FieldTy.u8, FieldTy.u8, FieldTy.u32], -- CreateClosureLongIndex
    [FieldTy.u8, FieldTy.u8, FieldTy.u16], -- CreateGeneratorClosure
    [FieldTy.u8, FieldTy.u8, FieldTy.u32] -- CreateGeneratorClosureLongIndex
  ]

/-- Rows 102 to 152 of the operand layout table (see `opcodeTable`). -/
def opcodeTable2 : List (List FieldTy) :=
  [
    [FieldTy.u8, FieldTy.u8, FieldTy.u16], -- CreateAsyncClosure
    [FieldTy.u8, FieldTy.u8, FieldTy.u32], -- CreateAsyncClosureLongIndex
    [FieldTy.u8, FieldTy.u8, FieldTy.u8], -- CreateThis
    [FieldTy.u8, FieldTy.u8, FieldTy.u8], -- SelectObject
    [FieldTy.u8, FieldTy.u8], -- LoadParam
    [FieldTy.u8, FieldTy.u32], -- LoadParamLong
    [FieldTy.u8, FieldTy.u8], -- LoadConstUInt8
    [FieldTy.u8, FieldTy.i32], -- LoadConstInt
    [FieldTy.u8, FieldTy.f64], -- LoadConstDouble
    [FieldTy.u8, FieldTy.u16], -- LoadConstBigInt
    [FieldTy.u8, FieldTy.u32], -- LoadConstBigIntLongIndex
    [FieldTy.u8, FieldTy.u16], -- LoadConstString
    [FieldTy.u8, FieldTy.u32], -- LoadConstStringLongIndex
    [FieldTy.u8], -- LoadConstEmpty
    [FieldTy.u8], -- LoadConstUndefined
    [FieldTy.u8], -- LoadConstNull
    [FieldTy.u8], -- LoadConstTrue
    [FieldTy.u8], -- LoadConstFalse
    [FieldTy.u8], -- LoadConstZero
    [FieldTy.u8, FieldTy.u8], -- CoerceThisNS
    [FieldTy.u8], -- LoadThisNS
    [FieldTy.u8, FieldTy.u8], -- ToNumber
    [FieldTy.u8, FieldTy.u8], -- ToNumeric
    [FieldTy.u8, FieldTy.u8], -- ToInt32
    [FieldTy.u8, FieldTy.u8], -- AddEmptyString
    [FieldTy.u8, FieldTy.u8, FieldTy.u8], -- GetArgumentsPropByVal
    [FieldTy.u8, FieldTy.u8], -- GetArgumentsLength
    [FieldTy.u8], -- ReifyArguments
    [FieldTy.u8, FieldTy.u32, FieldTy.u32, FieldTy.u32], -- CreateRegExp
    [FieldTy.u8, FieldTy.u32, FieldTy.i32, FieldTy.u32, FieldTy.u32], -- SwitchImm
    [], -- StartGenerator
    [FieldTy.u8, FieldTy.bool], -- ResumeGenerator
    [], -- CompleteGenerator
    [FieldTy.u8, FieldTy.u8, FieldTy.u16], -- CreateGenerator
    [FieldTy.u8, FieldTy.u8, FieldTy.u32], -- CreateGeneratorLongIndex
    [FieldTy.u8, FieldTy.u8], -- IteratorBegin
    [FieldTy.u8, FieldTy.u8, FieldTy.u8], -- IteratorNext
    [FieldTy.u8, FieldTy.bool], -- IteratorClose
    [FieldTy.i8], -- Jmp
    [FieldTy.i32], -- JmpLong
    [FieldTy.i8, FieldTy.u8], -- JmpTrue
    [FieldTy.i32, FieldTy.u8], -- JmpTrueLong
    [FieldTy.i8, FieldTy.u8], -- JmpFalse
    [FieldTy.i32, FieldTy.u8], -- JmpFalseLong
    [FieldTy.i8, FieldTy.u8], -- JmpUndefined
    [FieldTy.i32, FieldTy.u8], -- JmpUndefinedLong
    [FieldTy.i8], -- SaveGenerator
    [FieldTy.i32], -- SaveGeneratorLong
    [FieldTy.i8, FieldTy.u8, FieldTy.u8], -- JLess
    [FieldTy.i32, FieldTy.u8, FieldTy.u8], -- JLessLong
    [FieldTy.i8, FieldTy.u8, FieldTy.u8] -- JNotLess
  ]

/-- Rows 153 to 203 of the operand layout table (see `opcodeTable`). -/
def opcodeTable3 : List (List FieldTy) :=
  [
    [FieldTy.i32, FieldTy.u8, FieldTy.u8], -- JNotLessLong
    [FieldTy.i8, FieldTy.u8, FieldTy.u8], -- JLessN
    [FieldTy.i32, FieldTy.u8, FieldTy.u8], -- JLessNLong
    [FieldTy.i8, FieldTy.u8, FieldTy.u8], -- JNotLessN
    [FieldTy.i32, FieldTy.u8, FieldTy.u8], -- JNotLessNLong
    [FieldTy.i8, FieldTy.u8, FieldTy.u8], -- JLessEqual
    [FieldTy.i32, FieldTy.u8, FieldTy.u8], -- JLessEqualLong
    [FieldTy.i8, FieldTy.u8, FieldTy.u8], -- JNotLessEqual
    [FieldTy.i32, FieldTy.u8, FieldTy.u8], -- JNotLessEqualLong
    [FieldTy.i8, FieldTy.u8, FieldTy.u8], -- JLessEqualN
    [FieldTy.i32, FieldTy.u8, FieldTy.u8], -- JLessEqualNLong
    [FieldTy.i8, FieldTy.u8, FieldTy.u8], -- JNotLessEqualN
    [FieldTy.i32, FieldTy.u8, FieldTy.u8], -- JNotLessEqualNLong
    [FieldTy.i8, FieldTy.u8, FieldTy.u8], -- JGreater
    [FieldTy.i32, FieldTy.u8, FieldTy.u8], -- JGreaterLong
    [FieldTy.i8, FieldTy.u8, FieldTy.u8], -- JNotGreater
    [FieldTy.i32, FieldTy.u8, FieldTy.u8], -- JNotGreaterLong
    [FieldTy.i8, FieldTy.u8, FieldTy.u8], -- JGreaterN
    [FieldTy.i32, FieldTy.u8, FieldTy.u8], -- JGreaterNLong
    [FieldTy.i8, FieldTy.u8, FieldTy.u8], -- JNotGreaterN
    [FieldTy.i32, FieldTy.u8, FieldTy.u8], -- JNotGreaterNLong
    [FieldTy.i8, FieldTy.u8, FieldTy.u8], -- JGreaterEqual
    [FieldTy.i32, FieldTy.u8, FieldTy.u8], -- JGreaterEqualLong
    [FieldTy.i8, FieldTy.u8, FieldTy.u8], -- JNotGreaterEqual
    [FieldTy.i32, FieldTy.u8, FieldTy.u8], -- JNotGreaterEqualLong
    [FieldTy.i8, FieldTy.u8, FieldTy.u8], -- JGreaterEqualN
    [FieldTy.i32, FieldTy.u8, FieldTy.u8], -- JGreaterEqualNLong
    [FieldTy.i8, FieldTy.u8, FieldTy.u8], -- JNotGreaterEqualN
    [FieldTy.i32, FieldTy.u8, FieldTy.u8], -- JNotGreaterEqualNLong
    [FieldTy.i8, FieldTy.u8, FieldTy.u8], -- JEqual
    [FieldTy.i32, FieldTy.u8, FieldTy.u8], -- JEqualLong
    [FieldTy.i8, FieldTy.u8, FieldTy.u8], -- JNotEqual
    [FieldTy.i32, FieldTy.u8, FieldTy.u8], -- JNotEqualLong
    [FieldTy.i8, FieldTy.u8, FieldTy.u8], -- JStrictEqual
    [FieldTy.i32, FieldTy.u8, FieldTy.u8], -- JStrictEqualLong
    [FieldTy.i8, FieldTy.u8, FieldTy.u8], -- JStrictNotEqual
    [FieldTy.i32, FieldTy.u8, FieldTy.u8], -- JStrictNotEqualLong
    [FieldTy.u8, FieldTy.u8, FieldTy.u8], -- Add32
    [FieldTy.u8, FieldTy.u8, FieldTy.u8], -- Sub32
    [FieldTy.u8, FieldTy.u8, FieldTy.u8], -- Mul32
    [FieldTy.u8, FieldTy.u8, FieldTy.u8], -- Divi32
    [FieldTy.u8, FieldTy.u8, FieldTy.u8], -- Divu32
    [FieldTy.u8, FieldTy.u8, FieldTy.u8], -- Loadi8
    [FieldTy.u8, FieldTy.u8, FieldTy.u8], -- Loadu8
    [FieldTy.u8, FieldTy.u8, FieldTy.u8], -- Loadi16
    [FieldTy.u8, FieldTy.u8, FieldTy.u8], -- Loadu16
    [FieldTy.u8, FieldTy.u8, FieldTy.u8], -- Loadi32
    [FieldTy.u8, FieldTy.u8, FieldTy.u8], -- Loadu32
    [FieldTy.u8, FieldTy.u8, FieldTy.u8], -- Store8
    [FieldTy.u8, FieldTy.u8, FieldTy.u8], -- Store16
    [FieldTy.u8, FieldTy.u8, FieldTy.u8] -- Store32
  ]

/-- Operand layout table of the v93 instruction set: entry `i` is the list of operand field
types of the enum variant with declaration index `i`, in declared order, taken from
`src/hermes_dec/src/bytecode/v93.rs` (split into four chunks only to keep elaboration fast).
The `ByteCodeInstructions` derive macro in `src/help_macros/src/lib.rs` generates both
`get_bytecode_size` (sum of the field widths) and `read_opcode` (read each field in declared
order) from exactly this per-variant field list, with the opcode byte equal to the variant
declaration index. -/
def opcodeTable : List (List FieldTy) :=
  opcodeTable0 ++ opcodeTable1 ++ opcodeTable2 ++ opcodeTable3

def get_bytecode_size (opcode : Nat) : Option Nat :=
  (opcodeTable.get? opcode).map (fun fts => (fts.map fieldSize).sum)

/-- A decoded instruction in the table-driven model of the decoder: the opcode byte
(equal to the enum variant's declaration index) together with its operand values in
declared order. -/
structure DecodedInstruction where
  opcode : Nat
  operands : List FieldVal
deriving DecidableEq

/-- `InstructionSet::read_opcode` as generated by the derive macro: read the opcode byte,
dispatch on it, and read the declared operand fields in order.  An opcode byte with no
variant hits the `panic!` fallback arm, whose message interpolates the opcode byte only. -/
def read_opcode (bs : List Nat) : Except DecodeErr (DecodedInstruction × List Nat) :=
  match bs with
  | [] => .error .shortRead
  | b :: rest =>
      match opcodeTable.get? b with
      | some fts => (readFields fts rest).map (fun p => (⟨b, p.1⟩, p.2))
      | none => .error (.unhandledOpcode b)

theorem readField_length {t : FieldTy} {bs r : List Nat} {v : FieldVal}
    (h : readField t bs = .ok (v, r)) : bs.length = r.length + fieldSize t := by
  cases t <;>
    rcases bs with _ | ⟨b0, _ | ⟨b1, _ | ⟨b2, _ | ⟨b3, _ | ⟨b4, _ | ⟨b5, _ | ⟨b6, _ |
      ⟨b7, rest⟩⟩⟩⟩⟩⟩⟩⟩ <;>
    simp_all [readField, fieldSize]

theorem readFields_length {fts : List FieldTy} {bs r : List Nat} {vs : List FieldVal}
    (h : readFields fts bs = .ok (vs, r)) :
    bs.length = r.length + (fts.map fieldSize).sum := by
  induction fts generalizing bs vs with
  | nil =>
    simp [readFields] at h
    simp [h]
  | cons t ts ih =>
    rw [readFields] at h
    split at h
    · exact absurd h (by simp)
    · rename_i v bs1 h1
      split at h
      · exact absurd h (by simp)
      · rename_i vs2 bs2 h2
        have e1 := readField_length h1
        cases h
        have e2 := ih h2
        simp [List.map, List.sum_cons]
        omega

theorem read_opcode_length {bs r : List Nat} {d : DecodedInstruction}
    (h : read_opcode bs = .ok (d, r)) :
    bs.length = r.length + 1 + (get_bytecode_size d.opcode).getD 0 := by
  unfold read_opcode at h
  split at h
  · simp at h
  · rename_i b rest
    split at h
    · rename_i fts htab
      cases hrf : readFields fts rest with
      | error e => rw [hrf] at h; simp [Except.map] at h
      | ok p =>
        obtain ⟨vs, r2⟩ := p
        rw [hrf] at h
        simp [Except.map] at h
        have hlen := readFields_length hrf
        obtain ⟨hd, hr⟩ := h
        subst hr
        have hb : d.opcode = b := by rw [← hd]
        rw [hb]
        simp only [List.get?_eq_getElem?] at htab
        simp [get_bytecode_size, htab]
        omega
    · simp at h

theorem read_opcode_consumed {bs r : List Nat} {d : DecodedInstruction}
    (h : read_opcode bs = .ok (d, r)) : r.length < bs.length := by
  have := read_opcode_length h
  omega

/-! ## The per-function disassembly loop

`SmallFuncHeader::disassemble_function` (`src/hermes_dec/src/hermes_file_reader.rs`) calls
`read_bytecode`, which seeks to the function's offset and reads exactly
`bytecode_size_in_bytes` bytes into a fresh buffer — so the slab it loops over has the
header's `bytecode_size` as its length.  It then repeatedly records the cursor position as
the instruction's `offset` and calls `read_opcode`, until the cursor is empty.  The
overflowed-header path (`FunctionHeader::disassemble_function`) runs the identical loop
over a slab obtained the same way, so both paths are modelled by one loop over the slab. -/

/-- `InstructionInfo` from `src/hermes_dec/src/hermes_file_reader.rs`: an instruction
together with its byte offset inside the function's bytecode slab. -/
structure InstructionInfo (T : Type) where
  offset : Nat
  instruction : T
deriving DecidableEq

/-- The disassembly loop.  `total` is the slab length (so `total - remaining.length` is the
cursor position) and `fuel` is a structural-recursion bound; every loop iteration consumes
at least the opcode byte, so the fuel chosen by `disassemble_function` (slab length + 1)
can never run out (`disassemble_go_fuel_irrelevant`). -/
def disassemble_go (fuel total : Nat) (remaining : List Nat) :
    Except DecodeErr (List (InstructionInfo DecodedInstruction)) :=
  match fuel with
  | 0 => .error .shortRead
  | fuel + 1 =>
      match remaining with
      | [] => .ok []
      | _ :: _ =>
          match read_opcode remaining with
          | .error e => .error e
          | .ok (instr, rest) =>
              match disassemble_go fuel total rest with
              | .error e => .error e
              | .ok infos => .ok (⟨total - remaining.length, instr⟩ :: infos)

/-- The result of the disassembly loop does not depend on the fuel, as long as the fuel
exceeds the number of remaining bytes (each iteration consumes at least one byte). -/
theorem disassemble_go_fuel_irrelevant {f g total : Nat} {remaining : List Nat}
    (h1 : remaining.length < f) (h2 : remaining.length < g) :
    disassemble_go f total remaining = disassemble_go g total remaining := by
  induction f generalizing g remaining with
  | zero => omega
  | succ f ih =>
    cases g with
    | zero => omega
    | succ g =>
      cases remaining with
      | nil => rfl
      | cons b rest0 =>
        rw [disassemble_go, disassemble_go]
        cases hro : read_opcode (b :: rest0) with
        | error e => rfl
        | ok p =>
          obtain ⟨instr, rest⟩ := p
          have hlt := read_opcode_consumed hro
          simp only [List.length_cons] at hlt h1 h2
          dsimp only
          rw [@ih g rest (by omega) (by omega)]

/-- `SmallFuncHeader::disassemble_function` modelled over the bytecode slab (whose length
is the header's `bytecode_size`, see the section comment). -/
def disassemble_function (slab : List Nat) :
    Except DecodeErr (List (InstructionInfo DecodedInstruction)) :=
  disassemble_go (slab.length + 1) slab.length slab

/-- Byte size of a decoded instruction: one opcode byte plus the fixed operand widths of
its opcode, as computed by the derive macro's `get_bytecode_size`. -/
def instrByteSize (d : DecodedInstruction) : Nat :=
  1 + (get_bytecode_size d.opcode).getD 0

theorem disassemble_go_spec {fuel total : Nat} : ∀ {remaining : List Nat}
    {infos : List (InstructionInfo DecodedInstruction)},
    disassemble_go fuel total remaining = .ok infos → remaining.length ≤ total →
    (infos.map (fun x => instrByteSize x.instruction)).sum = remaining.length
      ∧ ∀ k (hk : k < infos.length), (infos.get ⟨k, hk⟩).offset
          = (total - remaining.length)
            + ((infos.take k).map (fun x => instrByteSize x.instruction)).sum := by
  induction fuel with
  | zero => intro remaining infos h _; simp [disassemble_go] at h
  | succ fuel ih =>
    intro remaining infos h hle
    cases remaining with
    | nil =>
      simp [disassemble_go] at h
      subst h
      simp
    | cons b rest0 =>
      rw [disassemble_go] at h
      cases hro : read_opcode (b :: rest0) with
      | error e => rw [hro] at h; simp at h
      | ok p =>
        obtain ⟨instr, rest⟩ := p
        rw [hro] at h
        dsimp only at h
        cases hgo : disassemble_go fuel total rest with
        | error e => rw [hgo] at h; simp at h
        | ok infos2 =>
          rw [hgo] at h
          simp only [Except.ok.injEq] at h
          subst h
          have hlen := read_opcode_length hro
          have hrest := ih hgo (by omega)
          constructor
          · have h1 := hrest.1
            simp only [List.map_cons, List.sum_cons, instrByteSize] at h1 ⊢
            omega
          · intro k hk
            cases k with
            | zero => simp
            | succ k =>
              simp only [List.length_cons, Nat.succ_lt_succ_iff] at hk
              have hoff := hrest.2 k hk
              simp only [List.get_cons_succ, List.take_succ_cons, List.map_cons,
                List.sum_cons]
              rw [hoff]
              simp only [instrByteSize] at hoff ⊢
              omega

/-- C1: for every function whose disassembly succeeds, the decoded instruction stream
consumes exactly `bytecode_size` bytes — the sum over all decoded instructions of
(1 opcode byte + the fixed operand widths of that opcode) equals the header's
`bytecode_size` (the slab length, see `disassemble_function`) — and each instruction's
recorded offset equals the cumulative byte size of all preceding instructions. -/
theorem disassembly_consumes_exactly_bytecode_size
    (slab : List Nat) (bytecode_size : Nat) (hsize : slab.length = bytecode_size)
    (infos : List (InstructionInfo DecodedInstruction))
    (hok : disassemble_function slab = .ok infos) :
    (infos.map (fun x => instrByteSize x.instruction)).sum = bytecode_size
      ∧ ∀ k (hk : k < infos.length), (infos.get ⟨k, hk⟩).offset
          = ((infos.take k).map (fun x => instrByteSize x.instruction)).sum := by
  have h := @disassemble_go_spec (slab.length + 1) slab.length slab infos hok
    (Nat.le_refl _)
  refine ⟨hsize ▸ h.1, fun k hk => ?_⟩
  have := h.2 k hk
  simpa using this

/-- The decoding of the concrete slab `LoadConstTrue r0; Ret r5` (opcodes 118 and 90,
2 bytes each), used by the C1 witness. -/
def c1SlabDecoded : List (InstructionInfo DecodedInstruction) :=
  [⟨0, ⟨118, [FieldVal.uv 0]⟩⟩, ⟨2, ⟨90, [FieldVal.uv 5]⟩⟩]

/-- Witness for C1 at the concrete slab `LoadConstTrue r0; Ret r5`. -/
theorem disassembly_consumes_exactly_bytecode_size_witness :
    disassemble_function [118, 0, 90, 5] = .ok c1SlabDecoded
      ∧ ((c1SlabDecoded.map (fun x => instrByteSize x.instruction)).sum = 4
        ∧ ∀ k (hk : k < c1SlabDecoded.length),
            (c1SlabDecoded.get ⟨k, hk⟩).offset
              = ((c1SlabDecoded.take k).map (fun x => instrByteSize x.instruction)).sum) :=
  ⟨by rfl, disassembly_consumes_exactly_bytecode_size [118, 0, 90, 5] 4 (by decide)
    c1SlabDecoded (by rfl)⟩

/-! ## C8: boolean operand decoding -/

set_option maxRecDepth 4000 in
/-- C8: for every boolean-typed operand in the instruction set, the decoder reads exactly
one byte (the rest of the stream is returned untouched) and the decoded value is `true` if
and only if that byte equals 0 — any nonzero byte decodes to `false`
(`reader.read_u8().unwrap() == 0` in `src/help_macros/src/lib.rs`).  The last conjunct
records that the instruction set does have boolean operands: row 68 of the operand table
(`PutOwnByVal`, `src/hermes_dec/src/bytecode/v93.rs`) ends in a `bool` field. -/
theorem bool_operand_one_byte_true_iff_zero (b : Nat) (rest : List Nat) :
    readField FieldTy.bool (b :: rest) = .ok (.bv (b == 0), rest)
      ∧ ((b == 0) = true ↔ b = 0)
      ∧ FieldTy.bool ∈ opcodeTable.getD 68 [] :=
  ⟨rfl, by simp, by decide⟩

/-! ## C9: unknown opcode bytes

The derive macro's `read_opcode` falls through to `panic!` with a message that interpolates
only the opcode byte; `disassemble_function` in `src/hermes_dec/src/main.rs` runs the
disassembly for one selected function, so the failure only affects that function's
disassembly, while `show_functions` and `strings` never invoke the instruction decoder.
The panic's payload is modelled by `DecodeErr.unhandledOpcode`. -/

/-- Counterexample for C9: the error produced for an unknown opcode byte does not name the
offset — the same unknown byte 255 at offset 0 (slab `[255]`) and at offset 2 (slab
`LoadConstTrue r0; 255`) produces literally the same error value, which names only the
opcode byte. -/
theorem unknown_opcode_error_lacks_offset :
    disassemble_function [255] = .error (.unhandledOpcode 255)
      ∧ disassemble_function [118, 0, 255] = .error (.unhandledOpcode 255)
      ∧ disassemble_function [255] = disassemble_function [118, 0, 255] :=
  ⟨by rfl, by rfl, by rfl⟩

/-- C9 (amended): when the disassembly loop meets an opcode byte with no entry in the
instruction table, it fails — for that function only — with the `Unhandled opcode` error,
whose report names exactly the offending opcode byte (and not the offset). -/
theorem unknown_opcode_fails_function_naming_opcode_byte
    (fuel total b : Nat) (rest : List Nat)
    (hb : opcodeTable.length ≤ b) (hf : 0 < fuel) :
    disassemble_go fuel total (b :: rest) = .error (.unhandledOpcode b) := by
  cases fuel with
  | zero => omega
  | succ fuel =>
    rw [disassemble_go]
    have : opcodeTable.get? b = none := by
      rw [List.get?_eq_none]
      exact hb
    rw [read_opcode, this]

set_option maxRecDepth 4000 in
/-- Witness for the amended C9 at opcode byte 255 at the start of a one-byte slab. -/
theorem unknown_opcode_fails_function_naming_opcode_byte_witness :
    disassemble_go 1 0 [255] = .error (.unhandledOpcode 255) :=
  unknown_opcode_fails_function_naming_opcode_byte 1 0 255 [] (by decide) (by decide)

/-! ## The string table: `BytecodeFile::get_string`

`src/hermes_dec/src/hermes_file_reader.rs`: `get_string` indexes
`string_table_entries` (a Rust panic when the index is out of bounds), returns `None` when
the entry's length is 0, and otherwise slices
`string_storage[offset .. offset + length]` (a Rust panic when the slice overruns the
storage), mapping each byte to a `char` (Latin-1).  The loaded
`string_table_overflow_entries` are never consulted by `get_string`. -/

/-- `SmallStringTableEntry`: bit-packed `is_utf16:1`, `offset:23`, `length:8`. -/
structure SmallStringTableEntry where
  is_utf16 : Nat
  offset : Nat
  length : Nat
deriving DecidableEq

/-- `OverflowStringTableEntry`: a 64-bit record of `offset:32` and `length:32`. -/
structure OverflowStringTableEntry where
  offset : Nat
  length : Nat
deriving DecidableEq

/-- The string-table portion of `BytecodeFile` (the other tables play no role in any
claim about `get_string`). -/
structure BytecodeFile where
  string_table_entries : List SmallStringTableEntry
  string_table_overflow_entries : List OverflowStringTableEntry
  string_storage : List Nat
deriving DecidableEq

/-- `BytecodeFile::get_string` translated from the source.  The outer `Option` is `none`
exactly when the Rust code panics (out-of-bounds table index, or a slice past the end of
`string_storage`); the inner `Option` is the function's own `Option<String>` result, with
the string as its list of Latin-1 bytes. -/
def get_string (f : BytecodeFile) (index : Nat) : Option (Option (List Nat)) :=
  if h : index < f.string_table_entries.length then
    let entry := f.string_table_entries.get ⟨index, h⟩
    if entry.length = 0 then
      some none
    else
      let begin_offset := entry.offset
      let end_offset := begin_offset + entry.length
      if end_offset ≤ f.string_storage.length then
        some (some ((f.string_storage.drop begin_offset).take entry.length))
      else
        none
  else
    none

/-- The specification's description of `get_string` (spec §4.1), written down for
comparison with the implementation: look up entry `index`; if its length sentinel
(length = 255, the maximum of the 8-bit field) marks an overflow entry, consult the
overflow table — the packed offset field holds the overflow-table index — for the real
offset and length; slice `string_storage[offset .. offset + length]`; return `none` iff
the length is 0. -/
def get_string_spec (f : BytecodeFile) (index : Nat) : Option (Option (List Nat)) :=
  if h : index < f.string_table_entries.length then
    let entry := f.string_table_entries.get ⟨index, h⟩
    if entry.length = 0 then
      some none
    else if entry.length = 255 then
      match f.string_table_overflow_entries.get? entry.offset with
      | some o =>
          if o.offset + o.length ≤ f.string_storage.length then
            some (some ((f.string_storage.drop o.offset).take o.length))
          else none
      | none => none
    else
      if entry.offset + entry.length ≤ f.string_storage.length then
        some (some ((f.string_storage.drop entry.offset).take entry.length))
      else none
  else
    none

/-- The concrete file exhibiting the C6 divergence: one string entry whose 8-bit length
field holds the overflow sentinel 255 and whose offset field holds overflow-table index 0,
an overflow table entry pointing at `storage[1 .. 3]`, and a 3-byte storage. -/
def c6File : BytecodeFile :=
  ⟨[⟨0, 0, 255⟩], [⟨1, 2⟩], [10, 20, 30]⟩

/-- C6 evaluated at the failing input: the implementation ignores the overflow string
table — it slices `string_storage[0 .. 255]` with the packed fields, which panics on this
file — while the claimed behaviour (spec §4.1, `get_string_spec`) consults the overflow
table and returns the bytes `[20, 30]`.  The second conjunct shows the code never reads
the overflow table at all: deleting the overflow entries changes nothing. -/
theorem get_string_ignores_overflow_table :
    (get_string c6File 0 = none ∧ get_string_spec c6File 0 = some (some [20, 30]))
      ∧ (∀ ov, get_string ⟨c6File.string_table_entries, ov, c6File.string_storage⟩ 0
          = get_string c6File 0) :=
  ⟨⟨by rfl, by rfl⟩, fun ov => by rfl⟩

/-- C10: `get_string` with an index at or past the end of the string table panics
(out-of-bounds index into `string_table_entries`, modelled by the outer `none`) rather
than returning `None` or an error value, and the in-band `None` result is reserved
exclusively for in-range entries of length 0. -/
theorem get_string_out_of_range_panics (f : BytecodeFile) (index : Nat) :
    (f.string_table_entries.length ≤ index → get_string f index = none)
      ∧ (get_string f index = some none
          ↔ ∃ h : index < f.string_table_entries.length,
              (f.string_table_entries.get ⟨index, h⟩).length = 0) := by
  constructor
  · intro hge
    unfold get_string
    rw [dif_neg (by omega)]
  · constructor
    · intro h
      unfold get_string at h
      split at h
      · rename_i hlt
        dsimp only at h
        refine ⟨hlt, ?_⟩
        split at h
        · assumption
        · split at h <;> simp at h
      · simp at h
    · rintro ⟨hlt, hzero⟩
      unfold get_string
      rw [dif_pos hlt]
      dsimp only
      rw [if_pos hzero]

/-- Witness for C10 on a concrete two-entry file: index 5 is out of range and panics;
index 1 is an in-range zero-length entry, and indeed the only `some none` index. -/
theorem get_string_out_of_range_panics_witness :
    get_string ⟨[⟨0, 0, 2⟩, ⟨0, 2, 0⟩], [], [65, 66]⟩ 5 = none
      ∧ get_string ⟨[⟨0, 0, 2⟩, ⟨0, 2, 0⟩], [], [65, 66]⟩ 1 = some none :=
  ⟨(get_string_out_of_range_panics ⟨[⟨0, 0, 2⟩, ⟨0, 2, 0⟩], [], [65, 66]⟩ 5).1 (by decide),
    (get_string_out_of_range_panics ⟨[⟨0, 0, 2⟩, ⟨0, 2, 0⟩], [], [65, 66]⟩ 1).2.2
      ⟨by decide, by decide⟩⟩

/-! ## The v93 instruction enum -/

set_option maxHeartbeats 2000000 in
/-- The v93 Hermes bytecode instruction set, translated from the `Instruction` enum in
`src/hermes_dec/src/bytecode/v93.rs` (204 variants, in declaration order; the opcode byte of a
variant is its declaration index, per the `ByteCodeInstructions` derive macro). Rust field types
are mapped as: `u8`/`u16`/`u32` to `Nat`, `i8`/`i32` to `Int`, `bool` to `Bool`, and `f64` to
`Nat` holding the raw little-endian 64-bit pattern (no instruction-level claim depends on
floating-point values). -/
inductive Instruction where
  | Unreachable
  | NewObjectWithBuffer (dst_reg : Nat) (size_hint : Nat) (static_elements_num : Nat) (object_key_buffer_index : Nat) (object_value_buffer_index : Nat)
  | NewObjectWithBufferLong (dst_reg : Nat) (preallocation_size_hint : Nat) (static_elements_num : Nat) (object_key_buffer_index : Nat) (object_value_buffer_index : Nat)
  | NewObject (dst_reg : Nat)
  | NewObjectWithParent (dst_reg : Nat) (parent_reg : Nat)
  | NewArrayWithBuffer (dst_reg : Nat) (preallocation_size_hint : Nat) (static_elements_num : Nat) (array_buffer_table_index : Nat)
  | NewArrayWithBufferLong (dst_reg : Nat) (preallocation_size_hint : Nat) (static_elements_num : Nat) (array_buffer_table_index : Nat)
  | NewArray (dst_reg : Nat) (size : Nat)
  | Mov (dst_reg : Nat) (src_reg : Nat)
  | MovLong (dst_reg : Nat) (src_reg : Nat)
  | Negate (dst_reg : Nat) (src_reg : Nat)
  | Not (dst_reg : Nat) (src_reg : Nat)
  | BitNot (dst_reg : Nat) (src_reg : Nat)
  | TypeOf (dst_reg : Nat) (src_reg : Nat)
  | Eq (dst_reg : Nat) (arg1_reg : Nat) (arg2_reg : Nat)
  | StrictEq (dst_reg : Nat) (arg1_reg : Nat) (arg2_reg : Nat)
  | Neq (dst_reg : Nat) (arg1_reg : Nat) (arg2_reg : Nat)
  | StrictNeq (dst_reg : Nat) (arg1_reg : Nat) (arg2_reg : Nat)
  | Less (dst_reg : Nat) (arg1_reg : Nat) (arg2_reg : Nat)
  | LessEq (dst_reg : Nat) (arg1_reg : Nat) (arg2_reg : Nat)
  | Greater (dst_reg : Nat) (arg1_reg : Nat) (arg2_reg : Nat)
  | GreaterEq (dst_reg : Nat) (arg1_reg : Nat) (arg2_reg : Nat)
  | Add (dst_reg : Nat) (arg1_reg : Nat) (arg2_reg : Nat)
  | AddN (dst_reg : Nat) (arg1_reg : Nat) (arg2_reg : Nat)
  | Mul (dst_reg : Nat) (arg1_reg : Nat) (arg2_reg : Nat)
  | MulN (dst_reg : Nat) (arg1_reg : Nat) (arg2_reg : Nat)
  | Div (dst_reg : Nat) (arg1_reg : Nat) (arg2_reg : Nat)
  | DivN (dst_reg : Nat) (arg1_reg : Nat) (arg2_reg : Nat)
  | Mod (dst_reg : Nat) (arg1_reg : Nat) (arg2_reg : Nat)
  | Sub (dst_reg : Nat) (arg1_reg : Nat) (arg2_reg : Nat)
  | SubN (dst_reg : Nat) (arg1_reg : Nat) (arg2_reg : Nat)
  | LShift (dst_reg : Nat) (arg1_reg : Nat) (arg2_reg : Nat)
  | RShift (dst_reg : Nat) (arg1_reg : Nat) (arg2_reg : Nat)
  | URshift (dst_reg : Nat) (arg1_reg : Nat) (arg2_reg : Nat)
  | BitAnd (dst_reg : Nat) (arg1_reg : Nat) (arg2_reg : Nat)
  | BitXor (dst_reg : Nat) (arg1_reg : Nat) (arg2_reg : Nat)
  | BitOr (dst_reg : Nat) (arg1_reg : Nat) (arg2_reg : Nat)
  | Inc (dst_reg : Nat) (arg_reg : Nat)
  | Dec (dst_reg : Nat) (arg_reg : Nat)
  | InstanceOf (dst_reg : Nat) (arg1_reg : Nat) (arg2_reg : Nat)
  | IsIn (dst_reg : Nat) (arg1_reg : Nat) (arg2_reg : Nat)
  | GetEnvironment (dst_reg : Nat) (num_environments : Nat)
  | StoreToEnvironment (env_reg : Nat) (env_slot_index : Nat) (value_reg : Nat)
  | StoreToEnvironmentL (env_reg : Nat) (env_slot_index : Nat) (value_reg : Nat)
  | StoreNPToEnvironment (env_reg : Nat) (env_slot_index : Nat) (value_reg : Nat)
  | StoreNPToEnvironmentL (env_reg : Nat) (env_slot_index : Nat) (value_reg : Nat)
  | LoadFromEnvironment (dst_reg : Nat) (env_reg : Nat) (env_slot_index : Nat)
  | LoadFromEnvironmentL (dst_reg : Nat) (env_reg : Nat) (env_slot_index : Nat)
  | GetGlobalObject (dst_reg : Nat)
  | GetNewTarget (dst_reg : Nat)
  | CreateEnvironment (dst_reg : Nat)
  | DeclareGlobalVar (string_table_index : Nat)
  | GetByIdShort (dst_reg : Nat) (obj_reg : Nat) (cache_index : Nat) (string_table_index : Nat)
  | GetById (dst_reg : Nat) (obj_reg : Nat) (cache_index : Nat) (string_table_index : Nat)
  | GetByIdLong (dst_reg : Nat) (obj_reg : Nat) (cache_index : Nat) (string_table_index : Nat)
  | TryGetById (dst_reg : Nat) (obj_reg : Nat) (cache_index : Nat) (string_table_index : Nat)
  | TryGetByIdLong (dst_reg : Nat) (obj_reg : Nat) (cache_index : Nat) (string_table_index : Nat)
  | PutById (dst_obj_reg : Nat) (value_reg : Nat) (cache_index : Nat) (string_table_index : Nat)
  | PutByIdLong (dst_obj_reg : Nat) (value_reg : Nat) (cache_index : Nat) (string_table_index : Nat)
  | TryPutById (dst_obj_reg : Nat) (value_reg : Nat) (cache_index : Nat) (string_table_index : Nat)
  | TryPutByIdLong (dst_obj_reg : Nat) (value_reg : Nat) (cache_index : Nat) (string_table_index : Nat)
  | PutNewOwnByIdShort (dst_obj_reg : Nat) (value_reg : Nat) (string_table_index : Nat)
  | PutNewOwnById (dst_obj_reg : Nat) (value_reg : Nat) (string_table_index : Nat)
  | PutNewOwnByIdLong (dst_obj_reg : Nat) (value_reg : Nat) (string_table_index : Nat)
  | PutNewOwnNEById (dst_obj_reg : Nat) (value_reg : Nat) (string_table_index : Nat)
  | PutNewOwnNEByIdLong (dst_obj_reg : Nat) (value_reg : Nat) (string_table_index : Nat)
  | PutOwnByIndex (dst_obj_reg : Nat) (value_reg : Nat) (index : Nat)
  | PutOwnByIndexL (dst_obj_reg : Nat) (value_reg : Nat) (index : Nat)
  | PutOwnByVal (dst_obj_reg : Nat) (value_reg : Nat) (property_name_reg : Nat) (enumerable : Bool)
  | DelById (dst_reg : Nat) (obj_reg : Nat) (string_table_index : Nat)
  | DelByIdLong (dst_reg : Nat) (obj_reg : Nat) (string_table_index : Nat)
  | GetByVal (dst_reg : Nat) (obj_reg : Nat) (index_reg : Nat)
  | PutByVal (dst_obj_reg : Nat) (index_reg : Nat) (value_reg : Nat)
  | DelByVal (dst_reg : Nat) (obj_reg : Nat) (index_reg : Nat)
  | PutOwnGetterSetterByVal (obj_reg : Nat) (property_name_reg : Nat) (getter_closure_reg : Nat) (setter_closure_reg : Nat) (enumerable : Bool)
  | GetPNameList (dst_reg : Nat) (obj_reg : Nat) (iterating_index_reg : Nat) (property_list_size_reg : Nat)
  | GetNextPName (dst_reg : Nat) (properties_array_reg : Nat) (obj_reg : Nat) (iterating_index_reg : Nat) (property_list_size_reg : Nat)
  | Call (dst_reg : Nat) (closure_reg : Nat) (arguments_len : Nat)
  | Construct (dst_reg : Nat) (closure_reg : Nat) (arguments_len : Nat)
  | Call1 (dst_reg : Nat) (closure_reg : Nat) (argument_reg : Nat)
  | CallDirect (dst_reg : Nat) (arguments_len : Nat) (function_table_index : Nat)
  | Call2 (dst_reg : Nat) (closure_reg : Nat) (argument1_reg : Nat) (argument2_reg : Nat)
  | Call3 (dst_reg : Nat) (closure_reg : Nat) (argument1_reg : Nat) (argument2_reg : Nat) (argument3_reg : Nat)
  | Call4 (dst_reg : Nat) (closure_reg : Nat) (argument1_reg : Nat) (argument2_reg : Nat) (argument3_reg : Nat) (argument4_reg : Nat)
  | CallLong (dst_reg : Nat) (closure_reg : Nat) (arguments_len : Nat)
  | ConstructLong (dst_reg : Nat) (closure_reg : Nat) (arguments_len : Nat)
  | CallDirectLongIndex (dst_reg : Nat) (arguments_len : Nat) (function_table_index : Nat)
  | CallBuiltin (dst_reg : Nat) (builtin_number : Nat) (arguments_len : Nat)
  | CallBuiltinLong (dst_reg : Nat) (builtin_number : Nat) (arguments_len : Nat)
  | GetBuiltinClosure (dst_reg : Nat) (builtin_number : Nat)
  | Ret (value_reg : Nat)
  | Catch (dst_reg : Nat)
  | DirectEval (dst_reg : Nat) (value_reg : Nat)
  | Throw (value_reg : Nat)
  | ThrowIfEmpty (dst_reg : Nat) (checked_value_reg : Nat)
  | Debugger
  | AsyncBreakCheck
  | ProfilePoint (function_local_profile_point_index : Nat)
  | CreateClosure (dst_reg : Nat) (current_environment_reg : Nat) (function_table_index : Nat)
  | CreateClosureLongIndex (dst_reg : Nat) (current_environment_reg : Nat) (function_table_index : Nat)
  | CreateGeneratorClosure (dst_reg : Nat) (current_environment_reg : Nat) (function_table_index : Nat)
  | CreateGeneratorClosureLongIndex (dst_reg : Nat) (current_environment_reg : Nat) (function_table_index : Nat)
  | CreateAsyncClosure (dst_reg : Nat) (current_environment_reg : Nat) (function_table_index : Nat)
  | CreateAsyncClosureLongIndex (dst_reg : Nat) (current_environment_reg : Nat) (function_table_index : Nat)
  | CreateThis (dst_reg : Nat) (prototype_reg : Nat) (constructor_closure_reg : Nat)
  | SelectObject (dst_reg : Nat) (this_obj_reg : Nat) (return_value_reg : Nat)
  | LoadParam (dst_reg : Nat) (param_index : Nat)
  | LoadParamLong (dst_reg : Nat) (param_index : Nat)
  | LoadConstUInt8 (dst_reg : Nat) (value : Nat)
  | LoadConstInt (dst_reg : Nat) (value : Int)
  | LoadConstDouble (dst_reg : Nat) (value : Nat)
  | LoadConstBigInt (dst_reg : Nat) (bigint_table_index : Nat)
  | LoadConstBigIntLongIndex (dst_reg : Nat) (bigint_table_index : Nat)
  | LoadConstString (dst_reg : Nat) (string_table_index : Nat)
  | LoadConstStringLongIndex (dst_reg : Nat) (string_table_index : Nat)
  | LoadConstEmpty (dst_reg : Nat)
  | LoadConstUndefined (dst_reg : Nat)
  | LoadConstNull (dst_reg : Nat)
  | LoadConstTrue (dst_reg : Nat)
  | LoadConstFalse (dst_reg : Nat)
  | LoadConstZero (dst_reg : Nat)
  | CoerceThisNS (dst_reg : Nat) (this_value_reg : Nat)
  | LoadThisNS (dst_this_obj_reg : Nat)
  | ToNumber (dst_reg : Nat) (value_reg : Nat)
  | ToNumeric (dst_reg : Nat) (value_reg : Nat)
  | ToInt32 (dst_reg : Nat) (value_reg : Nat)
  | AddEmptyString (dst_reg : Nat) (value_reg : Nat)
  | GetArgumentsPropByVal (dst_reg : Nat) (index_reg : Nat) (lazy_loaded_reg : Nat)
  | GetArgumentsLength (dst_reg : Nat) (lazy_loaded_reg : Nat)
  | ReifyArguments (lazy_loaded_reg : Nat)
  | CreateRegExp (dst_reg : Nat) (pattern_string_index : Nat) (flags_string_index : Nat) (regexp_table_index : Nat)
  | SwitchImm (value_reg : Nat) (relative_jump_table_offset : Nat) (relative_default_jump_offset : Int) (min_value : Nat) (max_value : Nat)
  | StartGenerator
  | ResumeGenerator (dst_result_reg : Nat) (is_return : Bool)
  | CompleteGenerator
  | CreateGenerator (dst_reg : Nat) (current_environment_reg : Nat) (function_table_index : Nat)
  | CreateGeneratorLongIndex (dst_reg : Nat) (current_environment_reg : Nat) (function_table_index : Nat)
  | IteratorBegin (dst_reg : Nat) (source_reg : Nat)
  | IteratorNext (dst_reg : Nat) (iterator_or_index_reg : Nat) (source_reg : Nat)
  | IteratorClose (iterator_or_index_reg : Nat) (ignore_inner_exception : Bool)
  | Jmp (relative_offset : Int)
  | JmpLong (relative_offset : Int)
  | JmpTrue (relative_offset : Int) (check_value_reg : Nat)
  | JmpTrueLong (relative_offset : Int) (check_value_reg : Nat)
  | JmpFalse (relative_offset : Int) (check_value_reg : Nat)
  | JmpFalseLong (relative_offset : Int) (check_value_reg : Nat)
  | JmpUndefined (relative_offset : Int) (check_value_reg : Nat)
  | JmpUndefinedLong (relative_offset : Int) (check_value_reg : Nat)
  | SaveGenerator (relative_offset : Int)
  | SaveGeneratorLong (relative_offset : Int)
  | JLess (relative_offset : Int) (arg1_value_reg : Nat) (arg2_value_reg : Nat)
  | JLessLong (relative_offset : Int) (arg1_value_reg : Nat) (arg2_value_reg : Nat)
  | JNotLess (relative_offset : Int) (arg1_value_reg : Nat) (arg2_value_reg : Nat)
  | JNotLessLong (relative_offset : Int) (arg1_value_reg : Nat) (arg2_value_reg : Nat)
  | JLessN (relative_offset : Int) (arg1_value_reg : Nat) (arg2_value_reg : Nat)
  | JLessNLong (relative_offset : Int) (arg1_value_reg : Nat) (arg2_value_reg : Nat)
  | JNotLessN (relative_offset : Int) (arg1_value_reg : Nat) (arg2_value_reg : Nat)
  | JNotLessNLong (relative_offset : Int) (arg1_value_reg : Nat) (arg2_value_reg : Nat)
  | JLessEqual (relative_offset : Int) (arg1_value_reg : Nat) (arg2_value_reg : Nat)
  | JLessEqualLong (relative_offset : Int) (arg1_value_reg : Nat) (arg2_value_reg : Nat)
  | JNotLessEqual (relative_offset : Int) (arg1_value_reg : Nat) (arg2_value_reg : Nat)
  | JNotLessEqualLong (relative_offset : Int) (arg1_value_reg : Nat) (arg2_value_reg : Nat)
  | JLessEqualN (relative_offset : Int) (arg1_value_reg : Nat) (arg2_value_reg : Nat)
  | JLessEqualNLong (relative_offset : Int) (arg1_value_reg : Nat) (arg2_value_reg : Nat)
  | JNotLessEqualN (relative_offset : Int) (arg1_value_reg : Nat) (arg2_value_reg : Nat)
  | JNotLessEqualNLong (relative_offset : Int) (arg1_value_reg : Nat) (arg2_value_reg : Nat)
  | JGreater (relative_offset : Int) (arg1_value_reg : Nat) (arg2_value_reg : Nat)
  | JGreaterLong (relative_offset : Int) (arg1_value_reg : Nat) (arg2_value_reg : Nat)
  | JNotGreater (relative_offset : Int) (arg1_value_reg : Nat) (arg2_value_reg : Nat)
  | JNotGreaterLong (relative_offset : Int) (arg1_value_reg : Nat) (arg2_value_reg : Nat)
  | JGreaterN (relative_offset : Int) (arg1_value_reg : Nat) (arg2_value_reg : Nat)
  | JGreaterNLong (relative_offset : Int) (arg1_value_reg : Nat) (arg2_value_reg : Nat)
  | JNotGreaterN (relative_offset : Int) (arg1_value_reg : Nat) (arg2_value_reg : Nat)
  | JNotGreaterNLong (relative_offset : Int) (arg1_value_reg : Nat) (arg2_value_reg : Nat)
  | JGreaterEqual (relative_offset : Int) (arg1_value_reg : Nat) (arg2_value_reg : Nat)
  | JGreaterEqualLong (relative_offset : Int) (arg1_value_reg : Nat) (arg2_value_reg : Nat)
  | JNotGreaterEqual (relative_offset : Int) (arg1_value_reg : Nat) (arg2_value_reg : Nat)
  | JNotGreaterEqualLong (relative_offset : Int) (arg1_value_reg : Nat) (arg2_value_reg : Nat)
  | JGreaterEqualN (relative_offset : Int) (arg1_value_reg : Nat) (arg2_value_reg : Nat)
  | JGreaterEqualNLong (relative_offset : Int) (arg1_value_reg : Nat) (arg2_value_reg : Nat)
  | JNotGreaterEqualN (relative_offset : Int) (arg1_value_reg : Nat) (arg2_value_reg : Nat)
  | JNotGreaterEqualNLong (relative_offset : Int) (arg1_value_reg : Nat) (arg2_value_reg : Nat)
  | JEqual (relative_offset : Int) (arg1_value_reg : Nat) (arg2_value_reg : Nat)
  | JEqualLong (relative_offset : Int) (arg1_value_reg : Nat) (arg2_value_reg : Nat)
  | JNotEqual (relative_offset : Int) (arg1_value_reg : Nat) (arg2_value_reg : Nat)
  | JNotEqualLong (relative_offset : Int) (arg1_value_reg : Nat) (arg2_value_reg : Nat)
  | JStrictEqual (relative_offset : Int) (arg1_value_reg : Nat) (arg2_value_reg : Nat)
  | JStrictEqualLong (relative_offset : Int) (arg1_value_reg : Nat) (arg2_value_reg : Nat)
  | JStrictNotEqual (relative_offset : Int) (arg1_value_reg : Nat) (arg2_value_reg : Nat)
  | JStrictNotEqualLong (relative_offset : Int) (arg1_value_reg : Nat) (arg2_value_reg : Nat)
  | Add32 (dst_reg : Nat) (arg1_reg : Nat) (arg2_reg : Nat)
  | Sub32 (dst_reg : Nat) (arg1_reg : Nat) (arg2_reg : Nat)
  | Mul32 (dst_reg : Nat) (arg1_reg : Nat) (arg2_reg : Nat)
  | Divi32 (dst_reg : Nat) (arg1_reg : Nat) (arg2_reg : Nat)
  | Divu32 (dst_reg : Nat) (arg1_reg : Nat) (arg2_reg : Nat)
  | Loadi8 (dst_reg : Nat) (_unused_reg : Nat) (heap_index_reg : Nat)
  | Loadu8 (dst_reg : Nat) (_unused_reg : Nat) (heap_index_reg : Nat)
  | Loadi16 (dst_reg : Nat) (_unused_reg : Nat) (heap_index_reg : Nat)
  | Loadu16 (dst_reg : Nat) (_unused_reg : Nat) (heap_index_reg : Nat)
  | Loadi32 (dst_reg : Nat) (_unused_reg : Nat) (heap_index_reg : Nat)
  | Loadu32 (dst_reg : Nat) (_unused_reg : Nat) (heap_index_reg : Nat)
  | Store8 (_unused_reg : Nat) (heap_index_reg : Nat) (value_reg : Nat)
  | Store16 (_unused_reg : Nat) (heap_index_reg : Nat) (value_reg : Nat)
  | Store32 (_unused_reg : Nat) (heap_index_reg : Nat) (value_reg : Nat)

/-! ## Instruction-to-statement lowering for the constant booleans (C7)

`simple_instructions_to_ast` (`src/hermes_dec/src/generate_ast.rs`) lowers each
instruction of a basic block through a large match producing `swc_ecma_ast` statements.
Only the shapes that the modelled arms produce are embedded here: an expression statement
holding a plain assignment whose left side is the register identifier and whose right side
is a literal. -/

/-- The literals produced by the modelled lowering arms (`swc_ecma_ast::Lit`). -/
inductive JsLit where
  | bool (value : Bool)
deriving DecidableEq

/-- The expressions produced by the modelled lowering arms (`swc_ecma_ast::Expr`). -/
inductive JsExpr where
  | ident (sym : String)
  | lit (l : JsLit)
  | assign (left right : JsExpr)
deriving DecidableEq

/-- The statements produced by the modelled lowering arms (`swc_ecma_ast::Stmt`). -/
inductive JsStmt where
  | expr (e : JsExpr)
deriving DecidableEq

/-- The per-instruction match arms of `simple_instructions_to_ast`
(`src/hermes_dec/src/generate_ast.rs`, the `LoadConstFalse` and `LoadConstTrue` arms,
lines 1997–2028) translated from the source: both arms push
`r<dst> = false;` — the `LoadConstTrue` arm also constructs `Lit::Bool` with
`value: false`.  Arms not needed by any claim are left unmodelled (`none`). -/
def simple_instruction_stmts : Instruction → Option (List JsStmt)
  | .LoadConstFalse dst_reg =>
      some [.expr (.assign (.ident ("r" ++ toString dst_reg)) (.lit (.bool false)))]
  | .LoadConstTrue dst_reg =>
      some [.expr (.assign (.ident ("r" ++ toString dst_reg)) (.lit (.bool false)))]
  | _ => none

/-- C7 evaluated at the failing input `LoadConstTrue r0`: the claim (and the intent
recorded in spec §9) is that `LoadConstTrue` assigns the literal `true`, but the source's
`LoadConstTrue` arm emits the boolean literal `false` — the exact same statement as
`LoadConstFalse r0` — so the two opcodes do not each yield their own boolean literal. -/
theorem load_const_true_lowers_to_false :
    simple_instruction_stmts (.LoadConstTrue 0)
        = some [.expr (.assign (.ident "r0") (.lit (.bool false)))]
      ∧ simple_instruction_stmts (.LoadConstFalse 0)
        = some [.expr (.assign (.ident "r0") (.lit (.bool false)))]
      ∧ simple_instruction_stmts (.LoadConstTrue 0)
        = simple_instruction_stmts (.LoadConstFalse 0) :=
  ⟨by rfl, by rfl, by rfl⟩

/-! ## The flow graph (`construct_flow_graph`, `src/hermes_dec/src/graphs.rs`)

`construct_flow_graph` adds one node per instruction and then, for each instruction index,
adds labeled edges by matching on the instruction: `Jmp`/`JmpLong` add a single `false`
edge to the resolved target; each conditional jump adds a `true` edge to its resolved
target and, when `instruction_index < instructions.len() - 1`, a `false` edge to the next
instruction; `Ret`/`Throw` add nothing; every other instruction adds the `false`
fallthrough edge when a next instruction exists.  The graph is modelled as its edge list
in insertion order (petgraph node indices are the instruction indices). -/

/-- A flow-graph edge: source instruction index, target instruction index, label. -/
abbrev FlowEdge : Type := Nat × Nat × Bool

/-- `u32::wrapping_add_signed`, used to compute `end_offset` in
`get_instruction_by_offset`. -/
def u32_wrapping_add_signed (o : Nat) (d : Int) : Nat :=
  (((o : Int) + d) % (2 ^ 32 : Int)).toNat

/-- Total lookup of an instruction by index; callers always stay in bounds, where the
default is never reached (the Rust code indexes and would panic out of bounds). -/
def instrAt (instrs : List (InstructionInfo Instruction)) (i : Nat) :
    InstructionInfo Instruction :=
  instrs.getD i ⟨0, .Unreachable⟩

/-- The walking loop of `get_instruction_by_offset` (`src/hermes_dec/src/graphs.rs`,
lines 1291–1311): while the index is in bounds, return it if its offset matches
`end_offset`; break (returning `None`) when the index is 0 (the source's overflow guard);
otherwise step by `relative_offset.signum()`.  `fuel` is a structural recursion bound;
the wrapper passes `instrs.length + cur + 2`, which the walk can never exhaust since a
positive step reaches the end of the list and a negative step reaches index 0 within that
many iterations, and a zero step (only possible for `relative_offset = 0`) matches the
starting instruction's own offset immediately. -/
def get_instruction_by_offset_go (instrs : List (InstructionInfo Instruction))
    (end_offset : Nat) (step : Int) : Nat → Nat → Option Nat
  | _, 0 => none
  | cur, fuel + 1 =>
      if cur < instrs.length then
        if (instrAt instrs cur).offset = end_offset then some cur
        else if cur = 0 then none
        else get_instruction_by_offset_go instrs end_offset step
          (((cur : Int) + step).toNat) fuel
      else none

/-- `get_instruction_by_offset`: resolve a branch target by offset arithmetic —
`end_offset` is the branching instruction's offset plus the signed relative offset
(with `u32` wrapping), and the instruction list is walked from the branch in the
direction of the sign of `relative_offset`. -/
def get_instruction_by_offset (instrs : List (InstructionInfo Instruction))
    (current_instruction_index : Nat) (relative_offset : Int) : Option Nat :=
  let end_offset :=
    u32_wrapping_add_signed (instrAt instrs current_instruction_index).offset
      relative_offset
  get_instruction_by_offset_go instrs end_offset relative_offset.sign
    current_instruction_index (instrs.length + current_instruction_index + 2)

/-- The fallthrough edge guard shared by all non-terminator arms:
`instruction_index < instructions.len() - 1`. -/
def fallthrough_edges (instrs : List (InstructionInfo Instruction)) (i : Nat) :
    List FlowEdge :=
  if i < instrs.length - 1 then [(i, i + 1, false)] else []

/-- The edges that `construct_flow_graph`'s match adds for the instruction at index `i`,
arm for arm from the source (the short variants' `i32::from` widening is the identity
here since `i8` fields are already modelled as `Int`).  The `.unwrap()` on a failed
target resolution is a Rust panic, modelled as `none`; in the conditional arms the
`true` edge is inserted before the fallthrough edge, as in the source. -/
def flow_edges_for (instrs : List (InstructionInfo Instruction)) (i : Nat) :
    Instruction → Option (List FlowEdge)
  | .Jmp relative_offset => (get_instruction_by_offset instrs i relative_offset).map (fun t => [(i, t, false)])
  | .JmpLong relative_offset => (get_instruction_by_offset instrs i relative_offset).map (fun t => [(i, t, false)])
  | .JmpTrue relative_offset _ => (get_instruction_by_offset instrs i relative_offset).map (fun t => (i, t, true) :: fallthrough_edges instrs i)
  | .JmpTrueLong relative_offset _ => (get_instruction_by_offset instrs i relative_offset).map (fun t => (i, t, true) :: fallthrough_edges instrs i)
  | .JmpFalse relative_offset _ => (get_instruction_by_offset instrs i relative_offset).map (fun t => (i, t, true) :: fallthrough_edges instrs i)
  | .JmpFalseLong relative_offset _ => (get_instruction_by_offset instrs i relative_offset).map (fun t => (i, t, true) :: fallthrough_edges instrs i)
  | .JmpUndefined relative_offset _ => (get_instruction_by_offset instrs i relative_offset).map (fun t => (i, t, true) :: fallthrough_edges instrs i)
  | .JmpUndefinedLong relative_offset _ => (get_instruction_by_offset instrs i relative_offset).map (fun t => (i, t, true) :: fallthrough_edges instrs i)
  | .JLess relative_offset _ _ => (get_instruction_by_offset instrs i relative_offset).map (fun t => (i, t, true) :: fallthrough_edges instrs i)
  | .JLessLong relative_offset _ _ => (get_instruction_by_offset instrs i relative_offset).map (fun t => (i, t, true) :: fallthrough_edges instrs i)
  | .JNotLess relative_offset _ _ => (get_instruction_by_offset instrs i relative_offset).map (fun t => (i, t, true) :: fallthrough_edges instrs i)
  | .JNotLessLong relative_offset _ _ => (get_instruction_by_offset instrs i relative_offset).map (fun t => (i, t, true) :: fallthrough_edges instrs i)
  | .JLessN relative_offset _ _ => (get_instruction_by_offset instrs i relative_offset).map (fun t => (i, t, true) :: fallthrough_edges instrs i)
  | .JLessNLong relative_offset _ _ => (get_instruction_by_offset instrs i relative_offset).map (fun t => (i, t, true) :: fallthrough_edges instrs i)
  | .JNotLessN relative_offset _ _ => (get_instruction_by_offset instrs i relative_offset).map (fun t => (i, t, true) :: fallthrough_edges instrs i)
  | .JNotLessNLong relative_offset _ _ => (get_instruction_by_offset instrs i relative_offset).map (fun t => (i, t, true) :: fallthrough_edges instrs i)
  | .JLessEqual relative_offset _ _ => (get_instruction_by_offset instrs i relative_offset).map (fun t => (i, t, true) :: fallthrough_edges instrs i)
  | .JLessEqualLong relative_offset _ _ => (get_instruction_by_offset instrs i relative_offset).map (fun t => (i, t, true) :: fallthrough_edges instrs i)
  | .JNotLessEqual relative_offset _ _ => (get_instruction_by_offset instrs i relative_offset).map (fun t => (i, t, true) :: fallthrough_edges instrs i)
  | .JNotLessEqualLong relative_offset _ _ => (get_instruction_by_offset instrs i relative_offset).map (fun t => (i, t, true) :: fallthrough_edges instrs i)
  | .JLessEqualN relative_offset _ _ => (get_instruction_by_offset instrs i relative_offset).map (fun t => (i, t, true) :: fallthrough_edges instrs i)
  | .JLessEqualNLong relative_offset _ _ => (get_instruction_by_offset instrs i relative_offset).map (fun t => (i, t, true) :: fallthrough_edges instrs i)
  | .JNotLessEqualN relative_offset _ _ => (get_instruction_by_offset instrs i relative_offset).map (fun t => (i, t, true) :: fallthrough_edges instrs i)
  | .JNotLessEqualNLong relative_offset _ _ => (get_instruction_by_offset instrs i relative_offset).map (fun t => (i, t, true) :: fallthrough_edges instrs i)
  | .JGreater relative_offset _ _ => (get_instruction_by_offset instrs i relative_offset).map (fun t => (i, t, true) :: fallthrough_edges instrs i)
  | .JGreaterLong relative_offset _ _ => (get_instruction_by_offset instrs i relative_offset).map (fun t => (i, t, true) :: fallthrough_edges instrs i)
  | .JNotGreater relative_offset _ _ => (get_instruction_by_offset instrs i relative_offset).map (fun t => (i, t, true) :: fallthrough_edges instrs i)
  | .JNotGreaterLong relative_offset _ _ => (get_instruction_by_offset instrs i relative_offset).map (fun t => (i, t, true) :: fallthrough_edges instrs i)
  | .JGreaterN relative_offset _ _ => (get_instruction_by_offset instrs i relative_offset).map (fun t => (i, t, true) :: fallthrough_edges instrs i)
  | .JGreaterNLong relative_offset _ _ => (get_instruction_by_offset instrs i relative_offset).map (fun t => (i, t, true) :: fallthrough_edges instrs i)
  | .JNotGreaterN relative_offset _ _ => (get_instruction_by_offset instrs i relative_offset).map (fun t => (i, t, true) :: fallthrough_edges instrs i)
  | .JNotGreaterNLong relative_offset _ _ => (get_instruction_by_offset instrs i relative_offset).map (fun t => (i, t, true) :: fallthrough_edges instrs i)
  | .JGreaterEqual relative_offset _ _ => (get_instruction_by_offset instrs i relative_offset).map (fun t => (i, t, true) :: fallthrough_edges instrs i)
  | .JGreaterEqualLong relative_offset _ _ => (get_instruction_by_offset instrs i relative_offset).map (fun t => (i, t, true) :: fallthrough_edges instrs i)
  | .JNotGreaterEqual relative_offset _ _ => (get_instruction_by_offset instrs i relative_offset).map (fun t => (i, t, true) :: fallthrough_edges instrs i)
  | .JNotGreaterEqualLong relative_offset _ _ => (get_instruction_by_offset instrs i relative_offset).map (fun t => (i, t, true) :: fallthrough_edges instrs i)
  | .JGreaterEqualN relative_offset _ _ => (get_instruction_by_offset instrs i relative_offset).map (fun t => (i, t, true) :: fallthrough_edges instrs i)
  | .JGreaterEqualNLong relative_offset _ _ => (get_instruction_by_offset instrs i relative_offset).map (fun t => (i, t, true) :: fallthrough_edges instrs i)
  | .JNotGreaterEqualN relative_offset _ _ => (get_instruction_by_offset instrs i relative_offset).map (fun t => (i, t, true) :: fallthrough_edges instrs i)
  | .JNotGreaterEqualNLong relative_offset _ _ => (get_instruction_by_offset instrs i relative_offset).map (fun t => (i, t, true) :: fallthrough_edges instrs i)
  | .JEqual relative_offset _ _ => (get_instruction_by_offset instrs i relative_offset).map (fun t => (i, t, true) :: fallthrough_edges instrs i)
  | .JEqualLong relative_offset _ _ => (get_instruction_by_offset instrs i relative_offset).map (fun t => (i, t, true) :: fallthrough_edges instrs i)
  | .JNotEqual relative_offset _ _ => (get_instruction_by_offset instrs i relative_offset).map (fun t => (i, t, true) :: fallthrough_edges instrs i)
  | .JNotEqualLong relative_offset _ _ => (get_instruction_by_offset instrs i relative_offset).map (fun t => (i, t, true) :: fallthrough_edges instrs i)
  | .JStrictEqual relative_offset _ _ => (get_instruction_by_offset instrs i relative_offset).map (fun t => (i, t, true) :: fallthrough_edges instrs i)
  | .JStrictEqualLong relative_offset _ _ => (get_instruction_by_offset instrs i relative_offset).map (fun t => (i, t, true) :: fallthrough_edges instrs i)
  | .JStrictNotEqual relative_offset _ _ => (get_instruction_by_offset instrs i relative_offset).map (fun t => (i, t, true) :: fallthrough_edges instrs i)
  | .JStrictNotEqualLong relative_offset _ _ => (get_instruction_by_offset instrs i relative_offset).map (fun t => (i, t, true) :: fallthrough_edges instrs i)
  | .Ret _ => some []
  | .Throw _ => some []
  | _ => some (fallthrough_edges instrs i)

/-- The body of `construct_flow_graph`'s `while` loop, iterating
`instruction_index` from `i` with `n` iterations left (`i + n = instructions.len()`),
collecting the added edges in insertion order. -/
def construct_flow_graph_go (instrs : List (InstructionInfo Instruction)) :
    Nat → Nat → Option (List FlowEdge)
  | _, 0 => some []
  | i, n + 1 =>
      match flow_edges_for instrs i (instrAt instrs i).instruction with
      | none => none
      | some es =>
          match construct_flow_graph_go instrs (i + 1) n with
          | none => none
          | some rest => some (es ++ rest)

/-- `construct_flow_graph`, as its edge list in insertion order (`none` models the panic
of the `.unwrap()` on an unresolved jump target). -/
def construct_flow_graph (instrs : List (InstructionInfo Instruction)) :
    Option (List FlowEdge) :=
  construct_flow_graph_go instrs 0 instrs.length

/-- Classification of the v93 instructions exactly along the arms of
`construct_flow_graph`'s match: the unconditional jumps (`Jmp`, `JmpLong`), the
conditional jumps and compare-and-jumps (each carrying its relative offset), the
terminators `Ret` and `Throw`, and everything else (the default arm). -/
inductive BranchClass where
  | uncond (relative_offset : Int)
  | cond (relative_offset : Int)
  | term
  | other
deriving DecidableEq

/-- The arm of `construct_flow_graph`'s match that an instruction falls into. -/
def classify : Instruction → BranchClass
  | .Jmp relative_offset => .uncond relative_offset
  | .JmpLong relative_offset => .uncond relative_offset
  | .JmpTrue relative_offset _ => .cond relative_offset
  | .JmpTrueLong relative_offset _ => .cond relative_offset
  | .JmpFalse relative_offset _ => .cond relative_offset
  | .JmpFalseLong relative_offset _ => .cond relative_offset
  | .JmpUndefined relative_offset _ => .cond relative_offset
  | .JmpUndefinedLong relative_offset _ => .cond relative_offset
  | .JLess relative_offset _ _ => .cond relative_offset
  | .JLessLong relative_offset _ _ => .cond relative_offset
  | .JNotLess relative_offset _ _ => .cond relative_offset
  | .JNotLessLong relative_offset _ _ => .cond relative_offset
  | .JLessN relative_offset _ _ => .cond relative_offset
  | .JLessNLong relative_offset _ _ => .cond relative_offset
  | .JNotLessN relative_offset _ _ => .cond relative_offset
  | .JNotLessNLong relative_offset _ _ => .cond relative_offset
  | .JLessEqual relative_offset _ _ => .cond relative_offset
  | .JLessEqualLong relative_offset _ _ => .cond relative_offset
  | .JNotLessEqual relative_offset _ _ => .cond relative_offset
  | .JNotLessEqualLong relative_offset _ _ => .cond relative_offset
  | .JLessEqualN relative_offset _ _ => .cond relative_offset
  | .JLessEqualNLong relative_offset _ _ => .cond relative_offset
  | .JNotLessEqualN relative_offset _ _ => .cond relative_offset
  | .JNotLessEqualNLong relative_offset _ _ => .cond relative_offset
  | .JGreater relative_offset _ _ => .cond relative_offset
  | .JGreaterLong relative_offset _ _ => .cond relative_offset
  | .JNotGreater relative_offset _ _ => .cond relative_offset
  | .JNotGreaterLong relative_offset _ _ => .cond relative_offset
  | .JGreaterN relative_offset _ _ => .cond relative_offset
  | .JGreaterNLong relative_offset _ _ => .cond relative_offset
  | .JNotGreaterN relative_offset _ _ => .cond relative_offset
  | .JNotGreaterNLong relative_offset _ _ => .cond relative_offset
  | .JGreaterEqual relative_offset _ _ => .cond relative_offset
  | .JGreaterEqualLong relative_offset _ _ => .cond relative_offset
  | .JNotGreaterEqual relative_offset _ _ => .cond relative_offset
  | .JNotGreaterEqualLong relative_offset _ _ => .cond relative_offset
  | .JGreaterEqualN relative_offset _ _ => .cond relative_offset
  | .JGreaterEqualNLong relative_offset _ _ => .cond relative_offset
  | .JNotGreaterEqualN relative_offset _ _ => .cond relative_offset
  | .JNotGreaterEqualNLong relative_offset _ _ => .cond relative_offset
  | .JEqual relative_offset _ _ => .cond relative_offset
  | .JEqualLong relative_offset _ _ => .cond relative_offset
  | .JNotEqual relative_offset _ _ => .cond relative_offset
  | .JNotEqualLong relative_offset _ _ => .cond relative_offset
  | .JStrictEqual relative_offset _ _ => .cond relative_offset
  | .JStrictEqualLong relative_offset _ _ => .cond relative_offset
  | .JStrictNotEqual relative_offset _ _ => .cond relative_offset
  | .JStrictNotEqualLong relative_offset _ _ => .cond relative_offset
  | .Ret _ => .term
  | .Throw _ => .term
  | _ => .other

/-- The canonical form of the per-arm edge lists of `construct_flow_graph`, indexed by
the arm classification. -/
def canonical_edges (instrs : List (InstructionInfo Instruction)) (i : Nat) :
    BranchClass → Option (List FlowEdge)
  | .uncond d => (get_instruction_by_offset instrs i d).map (fun t => [(i, t, false)])
  | .cond d => (get_instruction_by_offset instrs i d).map
      (fun t => (i, t, true) :: fallthrough_edges instrs i)
  | .term => some []
  | .other => some (fallthrough_edges instrs i)

set_option maxHeartbeats 2000000 in
theorem flow_edges_for_eq_canonical (instrs : List (InstructionInfo Instruction))
    (i : Nat) (instr : Instruction) :
    flow_edges_for instrs i instr = canonical_edges instrs i (classify instr) := by
  cases instr <;> rfl

theorem fallthrough_edges_src (instrs : List (InstructionInfo Instruction)) (i : Nat) :
    ∀ e ∈ fallthrough_edges instrs i, e.1 = i := by
  intro e he
  unfold fallthrough_edges at he
  split at he <;> simp_all

theorem canonical_edges_src {instrs : List (InstructionInfo Instruction)} {i : Nat}
    {c : BranchClass} {es : List FlowEdge} (h : canonical_edges instrs i c = some es) :
    ∀ e ∈ es, e.1 = i := by
  intro e he
  cases c with
  | uncond d =>
    cases hg : get_instruction_by_offset instrs i d with
    | none => rw [canonical_edges, hg] at h; exact absurd h (by simp)
    | some t =>
      rw [canonical_edges, hg] at h
      simp only [Option.map_some', Option.some.injEq] at h
      subst h
      simp at he
      simp [he]
  | cond d =>
    cases hg : get_instruction_by_offset instrs i d with
    | none => rw [canonical_edges, hg] at h; exact absurd h (by simp)
    | some t =>
      rw [canonical_edges, hg] at h
      simp only [Option.map_some', Option.some.injEq] at h
      subst h
      rw [List.mem_cons] at he
      rcases he with he | he
      · simp [he]
      · exact fallthrough_edges_src instrs i e he
  | term =>
    rw [canonical_edges] at h
    simp only [Option.some.injEq] at h
    subst h
    exact absurd he (List.not_mem_nil e)
  | other =>
    rw [canonical_edges] at h
    simp only [Option.some.injEq] at h
    subst h
    exact fallthrough_edges_src instrs i e he

theorem construct_flow_graph_go_filter (instrs : List (InstructionInfo Instruction)) :
    ∀ n i G, construct_flow_graph_go instrs i n = some G →
      (∀ e ∈ G, i ≤ e.1)
      ∧ ∀ j, i ≤ j → j < i + n →
          ∃ ej, flow_edges_for instrs j (instrAt instrs j).instruction = some ej
            ∧ G.filter (fun e => e.1 = j) = ej := by
  intro n
  induction n with
  | zero =>
    intro i G h
    rw [construct_flow_graph_go] at h
    simp at h
    subst h
    exact ⟨by simp, fun j h1 h2 => by omega⟩
  | succ n ih =>
    intro i G h
    rw [construct_flow_graph_go] at h
    cases hes : flow_edges_for instrs i (instrAt instrs i).instruction with
    | none => rw [hes] at h; simp at h
    | some es =>
      rw [hes] at h
      cases hrest : construct_flow_graph_go instrs (i + 1) n with
      | none => rw [hrest] at h; simp at h
      | some rest =>
        rw [hrest] at h
        simp at h
        subst h
        obtain ⟨ihsrc, ihfil⟩ := ih (i + 1) rest hrest
        have hsrc_es : ∀ e ∈ es, e.1 = i := by
          have hc := flow_edges_for_eq_canonical instrs i (instrAt instrs i).instruction
          rw [hc] at hes
          exact canonical_edges_src hes
        constructor
        · intro e he
          rcases List.mem_append.mp he with he | he
          · exact (hsrc_es e he).ge
          · exact le_trans (by omega) (ihsrc e he)
        · intro j hij hjn
          rcases eq_or_lt_of_le hij with heq | hlt
          · subst heq
            refine ⟨es, hes, ?_⟩
            rw [List.filter_append]
            have h1 : es.filter (fun e => e.1 = i) = es :=
              List.filter_eq_self.mpr (fun e he => by simp [hsrc_es e he])
            have h2 : rest.filter (fun e => e.1 = i) = [] :=
              List.filter_eq_nil_iff.mpr (fun e he => by
                have := ihsrc e he
                simp
                omega)
            rw [h1, h2, List.append_nil]
          · obtain ⟨ej, hej, hfil⟩ := ihfil j (by omega) (by omega)
            refine ⟨ej, hej, ?_⟩
            rw [List.filter_append]
            have h1 : es.filter (fun e => e.1 = j) = [] :=
              List.filter_eq_nil_iff.mpr (fun e he => by
                have := hsrc_es e he
                simp
                omega)
            rw [h1, hfil, List.nil_append]

/-- C2: in the flow graph built by `construct_flow_graph` (when the build succeeds), the
outgoing edges of instruction `i` — listed in insertion order — are exactly: for an
unconditional jump (`Jmp`, `JmpLong`) one `false` edge to the resolved jump target and no
fallthrough; for a conditional branch one `true` edge to its target followed by one
`false` fallthrough edge to `i + 1` when a following instruction exists; none for `Ret`
and `Throw`; and for every other instruction a single `false` edge to `i + 1` when a
following instruction exists. -/
theorem flow_graph_edge_shape_per_instruction
    (instrs : List (InstructionInfo Instruction)) (G : List FlowEdge)
    (hG : construct_flow_graph instrs = some G) (i : Nat) (hi : i < instrs.length) :
    (∀ d, classify (instrAt instrs i).instruction = .uncond d →
        ∃ t, get_instruction_by_offset instrs i d = some t
          ∧ G.filter (fun e => e.1 = i) = [(i, t, false)])
      ∧ (∀ d, classify (instrAt instrs i).instruction = .cond d →
          ∃ t, get_instruction_by_offset instrs i d = some t
            ∧ G.filter (fun e => e.1 = i)
                = (i, t, true)
                  :: (if i < instrs.length - 1 then [(i, i + 1, false)] else []))
      ∧ (classify (instrAt instrs i).instruction = .term →
          G.filter (fun e => e.1 = i) = [])
      ∧ (classify (instrAt instrs i).instruction = .other →
          G.filter (fun e => e.1 = i)
            = if i < instrs.length - 1 then [(i, i + 1, false)] else []) := by
  obtain ⟨-, hfil⟩ := construct_flow_graph_go_filter instrs instrs.length 0 G hG
  obtain ⟨ej, hej, hfe⟩ := hfil i (Nat.zero_le i) (by omega)
  rw [flow_edges_for_eq_canonical] at hej
  refine ⟨?_, ?_, ?_, ?_⟩
  · intro d hd
    rw [hd] at hej
    cases hg : get_instruction_by_offset instrs i d with
    | none => rw [canonical_edges, hg] at hej; exact absurd hej (by simp)
    | some t =>
      rw [canonical_edges, hg] at hej
      simp only [Option.map_some', Option.some.injEq] at hej
      exact ⟨t, rfl, by rw [hfe, ← hej]⟩
  · intro d hd
    rw [hd] at hej
    cases hg : get_instruction_by_offset instrs i d with
    | none => rw [canonical_edges, hg] at hej; exact absurd hej (by simp)
    | some t =>
      rw [canonical_edges, hg] at hej
      simp only [Option.map_some', Option.some.injEq] at hej
      refine ⟨t, rfl, ?_⟩
      rw [hfe, ← hej, fallthrough_edges]
  · intro hd
    rw [hd, canonical_edges] at hej
    simp only [Option.some.injEq] at hej
    rw [hfe, ← hej]
  · intro hd
    rw [hd, canonical_edges] at hej
    simp only [Option.some.injEq] at hej
    rw [hfe, ← hej, fallthrough_edges]

/-- A three-instruction program (`LoadConstTrue r0` at offset 0, `JmpTrue +3 r0` at
offset 2, `Ret r0` at offset 5) used as concrete input by several witnesses. -/
def exInstrs : List (InstructionInfo Instruction) :=
  [⟨0, .LoadConstTrue 0⟩, ⟨2, .JmpTrue 3 0⟩, ⟨5, .Ret 0⟩]

/-- Witness for C2 on `exInstrs`: the flow graph is built, and the conditional branch at
index 1 gets exactly its `true` edge to the resolved target 2 followed by the `false`
fallthrough edge. -/
theorem flow_graph_edge_shape_per_instruction_witness :
    construct_flow_graph exInstrs = some [(0, 1, false), (1, 2, true), (1, 2, false)]
      ∧ ∃ t, get_instruction_by_offset exInstrs 1 3 = some t
          ∧ ([(0, 1, false), (1, 2, true), (1, 2, false)] : List FlowEdge).filter
              (fun e => e.1 = 1)
            = (1, t, true)
              :: (if 1 < exInstrs.length - 1 then [(1, 1 + 1, false)] else []) :=
  ⟨by rfl,
    (flow_graph_edge_shape_per_instruction exInstrs
      [(0, 1, false), (1, 2, true), (1, 2, false)] (by rfl) 1 (by decide)).2.1 3 (by rfl)⟩

theorem get_instruction_by_offset_go_some {instrs : List (InstructionInfo Instruction)}
    {end_offset : Nat} {step : Int} :
    ∀ {fuel cur j : Nat},
      get_instruction_by_offset_go instrs end_offset step cur fuel = some j →
      j < instrs.length ∧ (instrAt instrs j).offset = end_offset
        ∧ (0 ≤ step → cur ≤ j) ∧ (step ≤ 0 → j ≤ cur) := by
  intro fuel
  induction fuel with
  | zero => intro cur j h; exact absurd h (by rw [get_instruction_by_offset_go]; simp)
  | succ fuel ih =>
    intro cur j h
    rw [get_instruction_by_offset_go] at h
    by_cases h1 : cur < instrs.length
    · rw [if_pos h1] at h
      by_cases h2 : (instrAt instrs cur).offset = end_offset
      · rw [if_pos h2] at h
        simp only [Option.some.injEq] at h
        subst h
        exact ⟨h1, h2, fun _ => le_refl _, fun _ => le_refl _⟩
      · rw [if_neg h2] at h
        by_cases h3 : cur = 0
        · rw [if_pos h3] at h; exact absurd h (by simp)
        · rw [if_neg h3] at h
          obtain ⟨hj1, hj2, hj3, hj4⟩ := ih h
          refine ⟨hj1, hj2, fun hs => ?_, fun hs => ?_⟩
          · have := hj3 hs
            omega
          · have := hj4 hs
            omega
    · rw [if_neg h1] at h
      exact absurd h (by simp)

theorem get_instruction_by_offset_go_none {instrs : List (InstructionInfo Instruction)}
    {end_offset : Nat} {step : Int}
    (hnone : ∀ k, k < instrs.length → (instrAt instrs k).offset ≠ end_offset) :
    ∀ fuel cur, get_instruction_by_offset_go instrs end_offset step cur fuel = none := by
  intro fuel
  induction fuel with
  | zero => intro cur; rw [get_instruction_by_offset_go]
  | succ fuel ih =>
    intro cur
    rw [get_instruction_by_offset_go]
    by_cases h1 : cur < instrs.length
    · rw [if_pos h1, if_neg (hnone cur h1)]
      by_cases h2 : cur = 0
      · rw [if_pos h2]
      · rw [if_neg h2]
        exact ih _
    · rw [if_neg h1]

theorem construct_flow_graph_go_none (instrs : List (InstructionInfo Instruction)) :
    ∀ n i j, i ≤ j → j < i + n →
      flow_edges_for instrs j (instrAt instrs j).instruction = none →
      construct_flow_graph_go instrs i n = none := by
  intro n
  induction n with
  | zero => intro i j h1 h2; omega
  | succ n ih =>
    intro i j h1 h2 hnone
    rw [construct_flow_graph_go]
    rcases eq_or_lt_of_le h1 with heq | hlt
    · subst heq
      rw [hnone]
    · cases hes : flow_edges_for instrs i (instrAt instrs i).instruction with
      | none => rfl
      | some es =>
        rw [ih (i + 1) j hlt (by omega) hnone]

/-- C3: jump-target resolution is by offset arithmetic from the start of the branching
instruction.  For a branch at index `i` (at offset `o`) with signed relative offset `d`:
(1) if `get_instruction_by_offset` returns an index `j`, then `j` is in bounds, the
recorded offset of `j` equals `o + d` (with `u32` wrapping, and literally `o + d`
whenever that sum does not wrap), and `j` lies on the side of `i` given by the sign of
`d` (the walk direction); (2) if no instruction's offset matches `o + d`, the resolution
returns `None`; and (3) for an (un)conditional branch whose resolution fails,
`construct_flow_graph` fails hard (the `.unwrap()` panic, modelled as `none`) rather than
silently picking another instruction. -/
theorem jump_target_resolution_by_offset
    (instrs : List (InstructionInfo Instruction)) (i : Nat) (hi : i < instrs.length)
    (d : Int) :
    (∀ j, get_instruction_by_offset instrs i d = some j →
        j < instrs.length
          ∧ (instrAt instrs j).offset
              = u32_wrapping_add_signed (instrAt instrs i).offset d
          ∧ (0 ≤ ((instrAt instrs i).offset : Int) + d →
              ((instrAt instrs i).offset : Int) + d < 2 ^ 32 →
              ((instrAt instrs j).offset : Int) = ((instrAt instrs i).offset : Int) + d)
          ∧ (0 ≤ d → i ≤ j) ∧ (d ≤ 0 → j ≤ i))
      ∧ ((∀ k, k < instrs.length →
            (instrAt instrs k).offset
              ≠ u32_wrapping_add_signed (instrAt instrs i).offset d) →
          get_instruction_by_offset instrs i d = none)
      ∧ ((classify (instrAt instrs i).instruction = .uncond d
            ∨ classify (instrAt instrs i).instruction = .cond d) →
          get_instruction_by_offset instrs i d = none →
          construct_flow_graph instrs = none) := by
  refine ⟨?_, ?_, ?_⟩
  · intro j hj
    rw [get_instruction_by_offset] at hj
    obtain ⟨h1, h2, h3, h4⟩ := get_instruction_by_offset_go_some hj
    refine ⟨h1, h2, ?_, ?_, ?_⟩
    · intro hge hlt
      rw [h2, u32_wrapping_add_signed, Int.emod_eq_of_lt hge hlt,
        Int.toNat_of_nonneg hge]
    · intro hd
      exact h3 (Int.sign_nonneg.mpr hd)
    · intro hd
      apply h4
      rcases lt_trichotomy d 0 with hq | hq | hq
      · rw [Int.sign_eq_neg_one_iff_neg.mpr hq]; omega
      · rw [hq]; simp
      · omega
  · intro hnone
    rw [get_instruction_by_offset]
    exact get_instruction_by_offset_go_none hnone _ _
  · intro hclass hnone
    have hfe : flow_edges_for instrs i (instrAt instrs i).instruction = none := by
      rw [flow_edges_for_eq_canonical]
      rcases hclass with hc | hc <;> rw [hc, canonical_edges, hnone] <;> rfl
    exact construct_flow_graph_go_none instrs instrs.length 0 i (Nat.zero_le i)
      (by omega) hfe

/-- Witness for C3 on `exInstrs`: the branch at index 1 (offset 2, relative offset 3)
resolves to index 2, whose recorded offset equals the wrapped sum (2 + 3 = 5). -/
theorem jump_target_resolution_by_offset_witness :
    get_instruction_by_offset exInstrs 1 3 = some 2
      ∧ (instrAt exInstrs 2).offset
          = u32_wrapping_add_signed (instrAt exInstrs 1).offset 3 :=
  ⟨by rfl,
    ((jump_target_resolution_by_offset exInstrs 1 (by decide) 3).1 2 (by rfl)).2.1⟩

/-! ## Basic-block coalescing (`construct_cfg`, `src/hermes_dec/src/graphs.rs`)

`construct_cfg` runs petgraph's `Dfs` from node 0 (stack-based: pop a node, skip it if
already discovered, otherwise mark it discovered and push its undiscovered successors,
iterating the out-edges newest-first so that the earliest-inserted edge's target ends on
top of the stack).  For each yielded vertex the loop body maintains an accumulating block:
it flushes the block before the vertex when the vertex has at least two incoming edges
(and the block is non-empty), appends the vertex, and flushes after the vertex when it has
at least two outgoing edges, zero outgoing edges, or its single successor is already in
the visited set.  A trailing non-empty accumulator would be dropped when the loop ends
(the source never flushes it), and nodes unreachable from node 0 are never visited.
After the blocks, a second pass adds the CFG edges (see `cfg_propagate_edges`).

The DFS state is modelled with the stack as a list (head = top), the discovered set as
the list of yielded vertices in reverse yield order (petgraph's `discovered` and the
loop's own `visited` set coincide: both contain exactly the yielded vertices), and `fuel`
as a structural recursion bound that `construct_cfg` chooses large enough to be
unreachable (`construct_cfg_go_ne_none`). -/

/-- The DFS-and-block loop of `construct_cfg`.  Arguments: fuel, stack, discovered
(reverse yield order), the accumulating block, the emitted blocks.  Returns the final
discovered list and blocks; `none` only on fuel exhaustion, which `construct_cfg`'s fuel
choice rules out. -/
def construct_cfg_go (edges : List FlowEdge) :
    Nat → List Nat → List Nat → List Nat → List (List Nat) →
    Option (List Nat × List (List Nat))
  | 0, _, _, _, _ => none
  | _ + 1, [], disc, _, blocks => some (disc, blocks)
  | fuel + 1, v :: stack, disc, cur, blocks =>
      if v ∈ disc then
        construct_cfg_go edges fuel stack disc cur blocks
      else
        let disc2 := v :: disc
        let outs := edges.filter (fun e => e.1 = v)
        let stack2 := (outs.map (fun e => e.2.1)).filter (fun t => ¬ t ∈ disc2) ++ stack
        let num_in := (edges.filter (fun e => e.2.1 = v)).length
        let p1 : List Nat × List (List Nat) :=
          if 2 ≤ num_in ∧ cur ≠ [] then ([], blocks ++ [cur]) else (cur, blocks)
        let cur2 := p1.1 ++ [v]
        let p2 : List Nat × List (List Nat) :=
          if 2 ≤ outs.length then ([], p1.2 ++ [cur2])
          else if outs.length = 0 then ([], p1.2 ++ [cur2])
          else if (outs.map (fun e => e.2.1)).getLastD 0 ∈ disc2 then ([], p1.2 ++ [cur2])
          else (cur2, p1.2)
        construct_cfg_go edges fuel stack2 disc2 p2.1 p2.2

/-- The nodes that can ever appear on the DFS stack: the start node 0 and the flow-edge
targets. -/
def cfgUniv (edges : List FlowEdge) : List Nat :=
  (0 :: edges.map (fun e => e.2.1)).dedup

/-- A fuel bound that `construct_cfg_go` can never exhaust (see
`construct_cfg_go_ne_none`). -/
def cfgFuel (edges : List FlowEdge) : Nat :=
  (cfgUniv edges).length * (edges.length + 1) + 2

/-- The edge-propagation pass of `construct_cfg` (`src/hermes_dec/src/graphs.rs`,
lines 1262–1288).  For each block index `i` it collects the incoming flow edges of the
block's first instruction into a `HashMap` keyed by edge source; the map is filled by
iterating `edges_directed`, which yields edges newest-first, so the label that survives
for a given source is that of the earliest-inserted flow edge from that source (here:
the head of the filtered edge list, which is in insertion order).  Then for every block
`i2` whose last instruction is such a source, the CFG edge `i2 → i` is added carrying the
surviving label. -/
def cfg_propagate_edges (blocks : List (List Nat)) (edges : List FlowEdge) :
    List FlowEdge :=
  (List.range blocks.length).flatMap (fun i =>
    (List.range blocks.length).filterMap (fun i2 =>
      match (edges.filter (fun e => e.2.1 = (blocks.getD i []).headD 0
          ∧ e.1 = (blocks.getD i2 []).getLastD 0)).head? with
      | some e => some (i2, i, e.2.2)
      | none => none))

/-- `construct_cfg`, modelled over the flow graph's edge list.  (The source panics on an
empty graph — `Dfs` starts at node 0 — which cannot arise from a decompiled function;
every claim about `construct_cfg` assumes a non-empty instruction list.) -/
def construct_cfg (edges : List FlowEdge) : List (List Nat) × List FlowEdge :=
  match construct_cfg_go edges (cfgFuel edges) [0] [] [] [] with
  | some (_, blocks) => (blocks, cfg_propagate_edges blocks edges)
  | none => ([], [])

/-- Reachability from instruction 0 along flow-graph edges. -/
def FlowReach (edges : List FlowEdge) (v : Nat) : Prop :=
  Relation.ReflTransGen (fun a b => ∃ l, (a, b, l) ∈ edges) 0 v


/-- Discovering an undiscovered stack node strictly shrinks the set of undiscovered
candidate nodes (the DFS termination measure). -/
theorem cfg_measure_decrease {edges : List FlowEdge} {disc : List Nat} {v : Nat}
    (hu : v ∈ cfgUniv edges) (hd : ¬ v ∈ disc) :
    ((cfgUniv edges).toFinset \ (v :: disc).toFinset).card + 1
      = ((cfgUniv edges).toFinset \ disc.toFinset).card := by
  have hmem : v ∈ (cfgUniv edges).toFinset \ disc.toFinset := by
    rw [Finset.mem_sdiff, List.mem_toFinset, List.mem_toFinset]
    exact ⟨hu, hd⟩
  have hsd : (cfgUniv edges).toFinset \ (v :: disc).toFinset
      = ((cfgUniv edges).toFinset \ disc.toFinset).erase v := by
    ext x
    simp [Finset.mem_sdiff, Finset.mem_erase, List.mem_toFinset]
    tauto
  rw [hsd, Finset.card_erase_of_mem hmem]
  have := Finset.card_pos.mpr ⟨v, hmem⟩
  omega

/-- The fuel bound of `construct_cfg` is sufficient: the DFS loop always terminates by
emptying its stack, never by running out of fuel. -/
theorem construct_cfg_go_ne_none (edges : List FlowEdge) :
    ∀ fuel stack disc cur blocks,
      (∀ x ∈ stack, x ∈ cfgUniv edges) →
      ((cfgUniv edges).toFinset \ disc.toFinset).card * (edges.length + 1)
          + stack.length < fuel →
      construct_cfg_go edges fuel stack disc cur blocks ≠ none := by
  intro fuel
  induction fuel with
  | zero => intro stack disc cur blocks hs hm; omega
  | succ fuel ih =>
    intro stack disc cur blocks hs hm
    cases stack with
    | nil => rw [construct_cfg_go]; simp
    | cons v rest =>
      rw [construct_cfg_go]
      by_cases hv : v ∈ disc
      · rw [if_pos hv]
        refine ih rest disc cur blocks (fun x hx => hs x (List.mem_cons_of_mem v hx)) ?_
        simp only [List.length_cons] at hm
        omega
      · rw [if_neg hv]
        have hvu : v ∈ cfgUniv edges := hs v (List.mem_cons_self v rest)
        have hdec := cfg_measure_decrease hvu hv
        refine ih _ _ _ _ ?_ ?_
        · intro x hx
          rcases List.mem_append.mp hx with hx | hx
          · have hx1 := (List.mem_filter.mp hx).1
            obtain ⟨e, he, rfl⟩ := List.mem_map.mp hx1
            rw [cfgUniv, List.mem_dedup]
            exact List.mem_cons_of_mem 0 (List.mem_map.mpr ⟨e, (List.mem_filter.mp he).1, rfl⟩)
          · exact hs x (List.mem_cons_of_mem v hx)
        · have hpush : ((((edges.filter (fun e => e.1 = v)).map (fun e => e.2.1)).filter
              (fun t => ¬ t ∈ (v :: disc))).length) ≤ edges.length := by
            calc _ ≤ (((edges.filter (fun e => e.1 = v)).map (fun e => e.2.1))).length :=
                  List.length_filter_le _ _
              _ = (edges.filter (fun e => e.1 = v)).length := List.length_map _ _
              _ ≤ edges.length := List.length_filter_le _ _
          rw [← hdec] at hm
          have hexp : (((cfgUniv edges).toFinset \ (v :: disc).toFinset).card + 1)
                * (edges.length + 1)
              = ((cfgUniv edges).toFinset \ (v :: disc).toFinset).card
                  * (edges.length + 1) + (edges.length + 1) := by ring
          rw [hexp] at hm
          simp only [List.length_append, List.length_cons] at hm ⊢
          omega



/-- The loop invariants of `construct_cfg`'s DFS: on any complete run, the emitted blocks
concatenate (in order) to the reversed discovered list, the discovered vertices are
pairwise distinct and reachable from node 0, the discovered set is closed under
flow-graph successors, every emitted block is non-empty, and the first vertex ever
yielded is node 0.  (The accumulating block is provably empty when the stack empties, so
the source's dropped trailing accumulator loses nothing.) -/
theorem construct_cfg_go_invariants (edges : List FlowEdge) :
    ∀ fuel stack disc cur blocks discF blocksF,
      construct_cfg_go edges fuel stack disc cur blocks = some (discF, blocksF) →
      blocks.flatten ++ cur = disc.reverse →
      disc.Nodup →
      (∀ b ∈ blocks, b ≠ []) →
      (cur = [] ∨ ∃ t rest, stack = t :: rest ∧ ¬ t ∈ disc) →
      (∀ x ∈ stack, FlowReach edges x) →
      (∀ x ∈ disc, FlowReach edges x) →
      (∀ u ∈ disc, ∀ e ∈ edges, e.1 = u → e.2.1 ∈ disc ∨ e.2.1 ∈ stack) →
      (disc = [] → stack = [0]) →
      (disc ≠ [] → disc.getLast? = some 0) →
      blocksF.flatten = discF.reverse
        ∧ discF.Nodup
        ∧ (∀ b ∈ blocksF, b ≠ [])
        ∧ (∀ x ∈ discF, FlowReach edges x)
        ∧ (∀ u ∈ discF, ∀ e ∈ edges, e.1 = u → e.2.1 ∈ discF)
        ∧ discF ≠ []
        ∧ discF.getLast? = some 0 := by
  intro fuel
  induction fuel with
  | zero =>
    intro stack disc cur blocks discF blocksF hgo
    rw [construct_cfg_go] at hgo
    exact absurd hgo (by simp)
  | succ fuel ih =>
    intro stack disc cur blocks discF blocksF hgo h1 h2 h3 h4 h5 h6 h7 h8 h9
    cases stack with
    | nil =>
      rw [construct_cfg_go] at hgo
      simp only [Option.some.injEq, Prod.mk.injEq] at hgo
      obtain ⟨hd, hb⟩ := hgo
      subst hd
      subst hb
      have hcur : cur = [] := by
        rcases h4 with h | ⟨t, rest, habs, -⟩
        · exact h
        · exact absurd habs (by simp)
      have hdnil : disc ≠ [] := by
        intro hnil
        exact absurd (h8 hnil) (by simp)
      refine ⟨?_, h2, h3, h6, ?_, hdnil, h9 hdnil⟩
      · rw [← h1, hcur, List.append_nil]
      · intro u hu e he hsrc
        rcases h7 u hu e he hsrc with h | h
        · exact h
        · exact absurd h (by simp)
    | cons v rest =>
      rw [construct_cfg_go] at hgo
      by_cases hv : v ∈ disc
      · rw [if_pos hv] at hgo
        have h4b : cur = [] ∨ ∃ t r2, rest = t :: r2 ∧ ¬ t ∈ disc := by
          rcases h4 with h | ⟨t, r2, heq, hnm⟩
          · exact Or.inl h
          · simp only [List.cons.injEq] at heq
            exact absurd (heq.1 ▸ hv) hnm
        refine ih rest disc cur blocks discF blocksF hgo h1 h2 h3 h4b
          (fun x hx => h5 x (List.mem_cons_of_mem v hx)) h6 ?_ ?_ h9
        · intro u hu e he hsrc
          rcases h7 u hu e he hsrc with h | h
          · exact Or.inl h
          · rcases List.mem_cons.mp h with h | h
            · exact Or.inl (h ▸ hv)
            · exact Or.inr h
        · intro hnil
          exact absurd (hnil ▸ hv) (List.not_mem_nil v)
      · rw [if_neg hv] at hgo
        dsimp only at hgo
        -- names for the step's values
        have hv0 : disc = [] → v = 0 := by
          intro hnil
          have := h8 hnil
          simp only [List.cons.injEq] at this
          exact this.1
        have hlast2 : (v :: disc).getLast? = some 0 := by
          cases disc with
          | nil => rw [hv0 rfl]; rfl
          | cons d ds =>
            rw [List.getLast?_cons_cons]
            exact h9 (by simp)
        have hnodup2 : (v :: disc).Nodup := List.nodup_cons.mpr ⟨hv, h2⟩
        have hreachv : FlowReach edges v := h5 v (List.mem_cons_self v rest)
        have hreach2 : ∀ x ∈ (v :: disc), FlowReach edges x := by
          intro x hx
          rcases List.mem_cons.mp hx with h | h
          · exact h ▸ hreachv
          · exact h6 x h
        have hstack2reach : ∀ x ∈ ((edges.filter (fun e => e.1 = v)).map
              (fun e => e.2.1)).filter (fun t => ¬ t ∈ (v :: disc)) ++ rest,
            FlowReach edges x := by
          intro x hx
          rcases List.mem_append.mp hx with hx | hx
          · have hx1 := (List.mem_filter.mp hx).1
            obtain ⟨e, he, rfl⟩ := List.mem_map.mp hx1
            obtain ⟨heG, hesrc⟩ := List.mem_filter.mp he
            refine Relation.ReflTransGen.tail hreachv ?_
            exact ⟨e.2.2, by
              simp only [decide_eq_true_eq] at hesrc
              rw [← hesrc]
              exact heG⟩
          · exact h5 x (List.mem_cons_of_mem v hx)
        have hclosure2 : ∀ u ∈ (v :: disc), ∀ e ∈ edges, e.1 = u →
            e.2.1 ∈ (v :: disc) ∨ e.2.1 ∈ ((edges.filter (fun e => e.1 = v)).map
              (fun e => e.2.1)).filter (fun t => ¬ t ∈ (v :: disc)) ++ rest := by
          intro u hu e he hsrc
          rcases List.mem_cons.mp hu with hu | hu
          · by_cases hmem : e.2.1 ∈ (v :: disc)
            · exact Or.inl hmem
            · refine Or.inr (List.mem_append.mpr (Or.inl ?_))
              refine List.mem_filter.mpr ⟨?_, by simpa using hmem⟩
              exact List.mem_map.mpr ⟨e, List.mem_filter.mpr ⟨he, by simp [hsrc, hu]⟩, rfl⟩
          · rcases h7 u hu e he hsrc with h | h
            · exact Or.inl (List.mem_cons_of_mem v h)
            · rcases List.mem_cons.mp h with h | h
              · exact Or.inl (List.mem_cons.mpr (Or.inl h))
              · exact Or.inr (List.mem_append.mpr (Or.inr h))
        have hmain : ∀ cur3 blocks2,
            construct_cfg_go edges fuel (((edges.filter (fun e => e.1 = v)).map
              (fun e => e.2.1)).filter (fun t => ¬ t ∈ (v :: disc)) ++ rest)
              (v :: disc) cur3 blocks2 = some (discF, blocksF) →
            blocks2.flatten ++ cur3 = (v :: disc).reverse →
            (∀ b ∈ blocks2, b ≠ []) →
            (cur3 = [] ∨ ∃ t r2, ((edges.filter (fun e => e.1 = v)).map
              (fun e => e.2.1)).filter (fun t => ¬ t ∈ (v :: disc)) ++ rest = t :: r2
                ∧ ¬ t ∈ (v :: disc)) →
            blocksF.flatten = discF.reverse
              ∧ discF.Nodup
              ∧ (∀ b ∈ blocksF, b ≠ [])
              ∧ (∀ x ∈ discF, FlowReach edges x)
              ∧ (∀ u ∈ discF, ∀ e ∈ edges, e.1 = u → e.2.1 ∈ discF)
              ∧ discF ≠ []
              ∧ discF.getLast? = some 0 := by
          intro cur3 blocks2 hgo2 hi1 hi3 hi4
          exact ih _ _ _ _ _ _ hgo2 hi1 hnodup2 hi3 hi4 hstack2reach hreach2 hclosure2
            (by simp) (fun _ => hlast2)
        have hstep : ∀ cur1 blocks1 C B,
            blocks1.flatten ++ (cur1 ++ [v]) = (v :: disc).reverse →
            (∀ b ∈ blocks1, b ≠ []) →
            ((C = [] ∧ B = blocks1 ++ [cur1 ++ [v]])
              ∨ (C = cur1 ++ [v] ∧ B = blocks1
                  ∧ ¬ (((edges.filter (fun e => e.1 = v)).map
                      (fun e => e.2.1)).getLastD 0 ∈ (v :: disc))
                  ∧ ¬ 2 ≤ (edges.filter (fun e => e.1 = v)).length
                  ∧ ¬ (edges.filter (fun e => e.1 = v)).length = 0)) →
            construct_cfg_go edges fuel (((edges.filter (fun e => e.1 = v)).map
                (fun e => e.2.1)).filter (fun t => ¬ t ∈ (v :: disc)) ++ rest)
              (v :: disc) C B = some (discF, blocksF) →
            blocksF.flatten = discF.reverse
              ∧ discF.Nodup
              ∧ (∀ b ∈ blocksF, b ≠ [])
              ∧ (∀ x ∈ discF, FlowReach edges x)
              ∧ (∀ u ∈ discF, ∀ e ∈ edges, e.1 = u → e.2.1 ∈ discF)
              ∧ discF ≠ []
              ∧ discF.getLast? = some 0 := by
          intro cur1 blocks1 C B hfl hne hcase hgo2
          rcases hcase with ⟨hC, hB⟩ | ⟨hC, hB, hq3, hq1, hq2⟩
          · subst hC
            subst hB
            refine hmain _ _ hgo2 ?_ ?_ (Or.inl rfl)
            · rw [List.append_nil, List.flatten_append]
              simpa using hfl
            · intro b hb
              rcases List.mem_append.mp hb with hb | hb
              · exact hne b hb
              · simp only [List.mem_singleton] at hb
                subst hb
                simp
          · subst hC
            subst hB
            have hlen1 : (edges.filter (fun e => e.1 = v)).length = 1 := by omega
            obtain ⟨e, hout⟩ := List.length_eq_one.mp hlen1
            refine hmain _ _ hgo2 hfl hne (Or.inr ?_)
            rw [hout] at hq3 ⊢
            simp at hq3
            refine ⟨e.2.1, rest, ?_, by simp [hq3.1, hq3.2]⟩
            simp [hq3.1, hq3.2]
        by_cases hp1 : 2 ≤ (edges.filter (fun e => e.2.1 = v)).length ∧ cur ≠ []
        · rw [if_pos hp1] at hgo
          dsimp only at hgo
          have hfl1 : (blocks ++ [cur]).flatten ++ (([] : List Nat) ++ [v])
              = (v :: disc).reverse := by
            rw [List.flatten_append, List.reverse_cons, ← h1]
            simp
          have hne1 : ∀ b ∈ blocks ++ [cur], b ≠ [] := by
            intro b hb
            rcases List.mem_append.mp hb with hb | hb
            · exact h3 b hb
            · simp only [List.mem_singleton] at hb
              subst hb
              exact hp1.2
          by_cases hq1 : 2 ≤ (edges.filter (fun e => e.1 = v)).length
          · rw [if_pos hq1] at hgo
            dsimp only at hgo
            exact hstep [] (blocks ++ [cur]) _ _ hfl1 hne1 (Or.inl ⟨rfl, rfl⟩) hgo
          · rw [if_neg hq1] at hgo
            by_cases hq2 : (edges.filter (fun e => e.1 = v)).length = 0
            · rw [if_pos hq2] at hgo
              dsimp only at hgo
              exact hstep [] (blocks ++ [cur]) _ _ hfl1 hne1 (Or.inl ⟨rfl, rfl⟩) hgo
            · rw [if_neg hq2] at hgo
              by_cases hq3 : ((edges.filter (fun e => e.1 = v)).map
                  (fun e => e.2.1)).getLastD 0 ∈ (v :: disc)
              · rw [if_pos hq3] at hgo
                dsimp only at hgo
                exact hstep [] (blocks ++ [cur]) _ _ hfl1 hne1 (Or.inl ⟨rfl, rfl⟩) hgo
              · rw [if_neg hq3] at hgo
                dsimp only at hgo
                exact hstep [] (blocks ++ [cur]) _ _ hfl1 hne1
                  (Or.inr ⟨rfl, rfl, hq3, hq1, hq2⟩) hgo
        · rw [if_neg hp1] at hgo
          dsimp only at hgo
          have hfl1 : blocks.flatten ++ (cur ++ [v]) = (v :: disc).reverse := by
            rw [List.reverse_cons, ← h1]
            simp
          by_cases hq1 : 2 ≤ (edges.filter (fun e => e.1 = v)).length
          · rw [if_pos hq1] at hgo
            dsimp only at hgo
            exact hstep cur blocks _ _ hfl1 h3 (Or.inl ⟨rfl, rfl⟩) hgo
          · rw [if_neg hq1] at hgo
            by_cases hq2 : (edges.filter (fun e => e.1 = v)).length = 0
            · rw [if_pos hq2] at hgo
              dsimp only at hgo
              exact hstep cur blocks _ _ hfl1 h3 (Or.inl ⟨rfl, rfl⟩) hgo
            · rw [if_neg hq2] at hgo
              by_cases hq3 : ((edges.filter (fun e => e.1 = v)).map
                  (fun e => e.2.1)).getLastD 0 ∈ (v :: disc)
              · rw [if_pos hq3] at hgo
                dsimp only at hgo
                exact hstep cur blocks _ _ hfl1 h3 (Or.inl ⟨rfl, rfl⟩) hgo
              · rw [if_neg hq3] at hgo
                dsimp only at hgo
                exact hstep cur blocks _ _ hfl1 h3
                  (Or.inr ⟨rfl, rfl, hq3, hq1, hq2⟩) hgo

/-- A successor-closed set of vertices containing 0 contains every vertex reachable
from 0. -/
theorem flow_reach_subset {edges : List FlowEdge} {discF : List Nat}
    (hclosed : ∀ u ∈ discF, ∀ e ∈ edges, e.1 = u → e.2.1 ∈ discF) (h0 : 0 ∈ discF) :
    ∀ x, FlowReach edges x → x ∈ discF := by
  intro x h
  induction h with
  | refl => exact h0
  | tail h step ih =>
    obtain ⟨l, hl⟩ := step
    exact hclosed _ ih _ hl rfl

/-- Every edge the flow-graph builder adds stays inside the instruction range. -/
theorem construct_flow_graph_go_wf (instrs : List (InstructionInfo Instruction)) :
    ∀ n i G, construct_flow_graph_go instrs i n = some G → i + n = instrs.length →
      ∀ e ∈ G, e.1 < instrs.length ∧ e.2.1 < instrs.length := by
  intro n
  induction n with
  | zero =>
    intro i G h hin e he
    rw [construct_flow_graph_go] at h
    simp only [Option.some.injEq] at h
    subst h
    exact absurd he (List.not_mem_nil e)
  | succ n ih =>
    intro i G h hin e he
    rw [construct_flow_graph_go] at h
    cases hes : flow_edges_for instrs i (instrAt instrs i).instruction with
    | none => rw [hes] at h; simp at h
    | some es =>
      rw [hes] at h
      cases hrest : construct_flow_graph_go instrs (i + 1) n with
      | none => rw [hrest] at h; simp at h
      | some rest =>
        rw [hrest] at h
        simp only [Option.some.injEq] at h
        subst h
        rcases List.mem_append.mp he with he | he
        · rw [flow_edges_for_eq_canonical] at hes
          have hft : ∀ e2 ∈ fallthrough_edges instrs i,
              e2.1 < instrs.length ∧ e2.2.1 < instrs.length := by
            intro e2 he2
            unfold fallthrough_edges at he2
            split at he2
            · simp only [List.mem_singleton] at he2
              subst he2
              refine ⟨?_, ?_⟩ <;> dsimp only <;> omega
            · exact absurd he2 (List.not_mem_nil e2)
          cases hc : classify (instrAt instrs i).instruction with
          | uncond d =>
            rw [hc] at hes
            cases hg : get_instruction_by_offset instrs i d with
            | none => rw [canonical_edges, hg] at hes; exact absurd hes (by simp)
            | some t =>
              rw [canonical_edges, hg] at hes
              simp only [Option.map_some', Option.some.injEq] at hes
              subst hes
              simp only [List.mem_singleton] at he
              subst he
              have ht := (get_instruction_by_offset_go_some
                (show get_instruction_by_offset_go instrs _ _ i _ = some t from hg)).1
              exact ⟨by omega, ht⟩
          | cond d =>
            rw [hc] at hes
            cases hg : get_instruction_by_offset instrs i d with
            | none => rw [canonical_edges, hg] at hes; exact absurd hes (by simp)
            | some t =>
              rw [canonical_edges, hg] at hes
              simp only [Option.map_some', Option.some.injEq] at hes
              subst hes
              rcases List.mem_cons.mp he with he | he
              · subst he
                have ht := (get_instruction_by_offset_go_some
                  (show get_instruction_by_offset_go instrs _ _ i _ = some t from hg)).1
                exact ⟨by omega, ht⟩
              · exact hft e he
          | term =>
            rw [hc, canonical_edges] at hes
            simp only [Option.some.injEq] at hes
            subst hes
            exact absurd he (List.not_mem_nil e)
          | other =>
            rw [hc, canonical_edges] at hes
            simp only [Option.some.injEq] at hes
            subst hes
            exact hft e he
        · exact ih (i + 1) rest hrest (by omega) e he

/-- Endpoints of flow-graph edges are valid instruction indices. -/
theorem construct_flow_graph_wf {instrs : List (InstructionInfo Instruction)}
    {G : List FlowEdge} (hG : construct_flow_graph instrs = some G) :
    ∀ e ∈ G, e.1 < instrs.length ∧ e.2.1 < instrs.length :=
  construct_flow_graph_go_wf instrs instrs.length 0 G hG (by omega)

/-- Every instruction reachable from instruction 0 in the flow graph of a non-empty
instruction list is a valid index. -/
theorem flow_reach_lt {instrs : List (InstructionInfo Instruction)} {G : List FlowEdge}
    (hG : construct_flow_graph instrs = some G) (hne : instrs ≠ []) :
    ∀ v, FlowReach G v → v < instrs.length := by
  intro v h
  induction h with
  | refl => exact List.length_pos.mpr hne
  | tail h step ih =>
    obtain ⟨l, hl⟩ := step
    exact (construct_flow_graph_wf hG _ hl).2

/-- `construct_cfg` always takes the successful branch of its DFS run. -/
theorem construct_cfg_run (edges : List FlowEdge) :
    ∃ discF blocksF,
      construct_cfg_go edges (cfgFuel edges) [0] [] [] [] = some (discF, blocksF)
        ∧ construct_cfg edges = (blocksF, cfg_propagate_edges blocksF edges) := by
  have hne : construct_cfg_go edges (cfgFuel edges) [0] [] [] [] ≠ none := by
    refine construct_cfg_go_ne_none edges _ _ _ _ _ ?_ ?_
    · intro x hx
      simp only [List.mem_singleton] at hx
      subst hx
      exact List.mem_dedup.mpr (List.mem_cons_self 0 _)
    · have h1 : (cfgUniv edges).toFinset.card ≤ (cfgUniv edges).length :=
        (cfgUniv edges).toFinset_card_le
      have h2 : (cfgUniv edges).toFinset.card * (edges.length + 1)
          ≤ (cfgUniv edges).length * (edges.length + 1) :=
        Nat.mul_le_mul_right _ h1
      simp only [List.toFinset_nil, Finset.sdiff_empty, cfgFuel, List.length_singleton]
      omega
  cases hgo : construct_cfg_go edges (cfgFuel edges) [0] [] [] [] with
  | none => exact absurd hgo hne
  | some r =>
    obtain ⟨discF, blocksF⟩ := r
    exact ⟨discF, blocksF, rfl, by rw [construct_cfg, hgo]⟩

/-- The block-level guarantees of `construct_cfg` on any edge list: non-empty blocks,
pairwise-distinct indices, the union of the blocks is exactly the set of vertices
reachable from node 0, and the very first index is 0. -/
theorem construct_cfg_blocks_spec (edges : List FlowEdge) :
    (∀ b ∈ (construct_cfg edges).1, b ≠ [])
      ∧ (construct_cfg edges).1.flatten.Nodup
      ∧ (∀ v, v ∈ (construct_cfg edges).1.flatten ↔ FlowReach edges v)
      ∧ (construct_cfg edges).1.flatten.head? = some 0 := by
  obtain ⟨discF, blocksF, hgo, hcc⟩ := construct_cfg_run edges
  have hinv := construct_cfg_go_invariants edges (cfgFuel edges) [0] [] [] [] discF
    blocksF hgo rfl List.nodup_nil (by simp) (Or.inl rfl)
    (by
      intro x hx
      simp only [List.mem_singleton] at hx
      subst hx
      exact Relation.ReflTransGen.refl)
    (by simp) (by simp) (fun _ => rfl) (fun h => absurd rfl h)
  obtain ⟨hflat, hnodup, hblocks, hreach, hclosed, hne, hlast⟩ := hinv
  have h0mem : 0 ∈ discF := by
    cases hd : discF.getLast? with
    | none => rw [hd] at hlast; exact absurd hlast (by simp)
    | some a =>
      rw [hd] at hlast
      simp only [Option.some.injEq] at hlast
      subst hlast
      exact List.mem_of_mem_getLast? hd
  rw [hcc]
  simp only
  refine ⟨hblocks, ?_, ?_, ?_⟩
  · rw [hflat]
    exact List.nodup_reverse.mpr hnodup
  · intro v
    rw [hflat, List.mem_reverse]
    constructor
    · exact hreach v
    · exact flow_reach_subset hclosed h0mem v
  · rw [hflat, List.head?_reverse]
    exact hlast

/-- C4 (amended): for every flow graph built by `construct_flow_graph` from a non-empty
instruction list, the CFG produced by `construct_cfg` satisfies: every block is a
non-empty list of instruction indices; the blocks' indices are pairwise distinct; their
union is exactly the set of instruction indices reachable from instruction 0 in the flow
graph (instructions unreachable from 0 are never visited by the DFS and appear in no
block — so the union is a partition of the reachable subset of `[0, len)`, not of all of
it); every index in a block is a valid instruction index; and the first block starts with
instruction 0. -/
theorem cfg_blocks_partition_reachable
    (instrs : List (InstructionInfo Instruction)) (G : List FlowEdge)
    (hG : construct_flow_graph instrs = some G) (hne : instrs ≠ []) :
    (∀ b ∈ (construct_cfg G).1, b ≠ [])
      ∧ (construct_cfg G).1.flatten.Nodup
      ∧ (∀ v, v ∈ (construct_cfg G).1.flatten ↔ FlowReach G v)
      ∧ (∀ v ∈ (construct_cfg G).1.flatten, v < instrs.length)
      ∧ (∃ b0 bs, (construct_cfg G).1 = b0 :: bs ∧ b0.head? = some 0) := by
  obtain ⟨hblocks, hnodup, hmem, hhead⟩ := construct_cfg_blocks_spec G
  refine ⟨hblocks, hnodup, hmem, ?_, ?_⟩
  · intro v hv
    exact flow_reach_lt hG hne v ((hmem v).mp hv)
  · cases hbl : (construct_cfg G).1 with
    | nil => rw [hbl] at hhead; exact absurd hhead (by simp)
    | cons b0 bs =>
      refine ⟨b0, bs, rfl, ?_⟩
      rw [hbl] at hhead hblocks
      cases b0 with
      | nil => exact absurd rfl (hblocks [] (List.mem_cons_self _ _))
      | cons x t =>
        simp only [List.flatten_cons, List.cons_append, List.head?_cons,
          Option.some.injEq] at hhead
        simp [hhead]

/-- The two-instruction program `Ret r0; Ret r0`: its second instruction is dead code,
unreachable from instruction 0. -/
def c4Instrs : List (InstructionInfo Instruction) := [⟨0, .Ret 0⟩, ⟨2, .Ret 0⟩]

/-- Counterexample for C4: for `Ret r0; Ret r0` the flow graph has no edges, the DFS from
instruction 0 never visits instruction 1, and the CFG's only block is `[0]` — the union
of the blocks' instruction indices is not a partition of `[0, len(instructions))` as the
claim states, because index 1 appears in no block. -/
theorem cfg_blocks_miss_unreachable_instruction :
    construct_flow_graph c4Instrs = some []
      ∧ construct_cfg [] = ([[0]], [])
      ∧ ¬ (∀ v < c4Instrs.length, v ∈ (construct_cfg []).1.flatten) :=
  ⟨by rfl, by rfl, by decide⟩

/-- Witness for the amended C4 on `exInstrs` and its flow graph: all blocks are
non-empty and the first block starts with instruction 0. -/
theorem cfg_blocks_partition_reachable_witness :
    (∀ b ∈ (construct_cfg [(0, 1, false), (1, 2, true), (1, 2, false)]).1, b ≠ [])
      ∧ ∃ b0 bs, (construct_cfg [(0, 1, false), (1, 2, true), (1, 2, false)]).1
          = b0 :: bs ∧ b0.head? = some 0 :=
  ⟨(cfg_blocks_partition_reachable exInstrs [(0, 1, false), (1, 2, true), (1, 2, false)]
      (by rfl) (List.cons_ne_nil _ _)).1,
   (cfg_blocks_partition_reachable exInstrs [(0, 1, false), (1, 2, true), (1, 2, false)]
      (by rfl) (List.cons_ne_nil _ _)).2.2.2.2⟩

/-- Membership characterisation of the propagated CFG edges: `(a, b, l)` is a CFG edge
exactly when `a` and `b` are block indices and the earliest-inserted flow edge from
block `a`'s last instruction to block `b`'s first instruction exists and carries
label `l`. -/
theorem cfg_propagate_edges_mem {blocks : List (List Nat)} {edges : List FlowEdge}
    {a b : Nat} {l : Bool} :
    (a, b, l) ∈ cfg_propagate_edges blocks edges
      ↔ a < blocks.length ∧ b < blocks.length
        ∧ ∃ e, (edges.filter (fun e2 => e2.2.1 = (blocks.getD b []).headD 0
            ∧ e2.1 = (blocks.getD a []).getLastD 0)).head? = some e ∧ l = e.2.2 := by
  unfold cfg_propagate_edges
  rw [List.mem_flatMap]
  constructor
  · rintro ⟨i, hi, hmem⟩
    rw [List.mem_range] at hi
    rw [List.mem_filterMap] at hmem
    obtain ⟨i2, hi2, hmatch⟩ := hmem
    rw [List.mem_range] at hi2
    cases hh : (edges.filter (fun e2 => e2.2.1 = (blocks.getD i []).headD 0
        ∧ e2.1 = (blocks.getD i2 []).getLastD 0)).head? with
    | none => rw [hh] at hmatch; simp at hmatch
    | some e =>
      rw [hh] at hmatch
      simp only [Option.some.injEq, Prod.mk.injEq] at hmatch
      obtain ⟨h1, h2, h3⟩ := hmatch
      subst h1
      subst h2
      exact ⟨hi2, hi, e, hh, h3.symm⟩
  · rintro ⟨ha, hb, e, hh, hl⟩
    refine ⟨b, List.mem_range.mpr hb, ?_⟩
    rw [List.mem_filterMap]
    refine ⟨a, List.mem_range.mpr ha, ?_⟩
    rw [hh]
    simp [hl]

/-- C5 (amended): for every CFG edge `(A, B, l)` produced by `construct_cfg` there is a
flow-graph edge from the last instruction of block `A` to the first instruction of block
`B` carrying the same label `l`; and conversely, every flow-graph edge from some block's
last instruction to some block's first instruction gives rise to a CFG edge between those
blocks — but its label is that of the earliest-inserted flow edge between that pair of
instructions, so when parallel `true`/`false` edges join the same pair (a conditional
branch whose target is its own fallthrough) only that earliest label survives (see the
counterexample). -/
theorem cfg_edges_correspond_to_flow_edges
    (instrs : List (InstructionInfo Instruction)) (G : List FlowEdge)
    (hG : construct_flow_graph instrs = some G) :
    (∀ a b l, (a, b, l) ∈ (construct_cfg G).2 →
        a < (construct_cfg G).1.length ∧ b < (construct_cfg G).1.length
          ∧ (((construct_cfg G).1.getD a []).getLastD 0,
              ((construct_cfg G).1.getD b []).headD 0, l) ∈ G)
      ∧ (∀ s t l a b, (s, t, l) ∈ G →
          a < (construct_cfg G).1.length → b < (construct_cfg G).1.length →
          ((construct_cfg G).1.getD a []).getLastD 0 = s →
          ((construct_cfg G).1.getD b []).headD 0 = t →
          ∃ e, (G.filter (fun e2 => e2.2.1 = t ∧ e2.1 = s)).head? = some e
            ∧ (a, b, e.2.2) ∈ (construct_cfg G).2) := by
  obtain ⟨discF, blocksF, hgo, hcc⟩ := construct_cfg_run G
  rw [hcc]
  simp only
  constructor
  · intro a b l hmem
    rw [cfg_propagate_edges_mem] at hmem
    obtain ⟨ha, hb, e, hh, hl⟩ := hmem
    refine ⟨ha, hb, ?_⟩
    have hef := List.mem_filter.mp (List.mem_of_mem_head? hh)
    obtain ⟨e1, e2, e3⟩ := e
    simp only [decide_eq_true_eq] at hef
    have heG := hef.1
    have hh1 := hef.2.1
    have hh2 := hef.2.2
    rw [hl, ← hh1, ← hh2]
    exact heG
  · intro s t l a b hmemG ha hb hlast hhead
    have hfil : (s, t, l) ∈ G.filter (fun e2 => e2.2.1 = t ∧ e2.1 = s) :=
      List.mem_filter.mpr ⟨hmemG, by simp⟩
    cases hh : (G.filter (fun e2 => e2.2.1 = t ∧ e2.1 = s)).head? with
    | none =>
      rw [List.head?_eq_none_iff] at hh
      rw [hh] at hfil
      exact absurd hfil (List.not_mem_nil _)
    | some e =>
      refine ⟨e, rfl, ?_⟩
      rw [cfg_propagate_edges_mem]
      refine ⟨ha, hb, e, ?_, rfl⟩
      rw [hlast, hhead]
      exact hh

/-- The flow graph of `exInstrs`: the conditional branch at index 1 targets index 2,
which is also its fallthrough, producing parallel `true`/`false` edges. -/
def exFlow : List FlowEdge := [(0, 1, false), (1, 2, true), (1, 2, false)]

/-- Counterexample for C5: in `exInstrs`'s flow graph the parallel edges `(1,2,true)` and
`(1,2,false)` both run from block 0's last instruction (1) to block 1's first
instruction (2), but the CFG keeps a single edge labelled `true` — the flow edge
`(1,2,false)` gives rise to no CFG edge with its label, refuting the claim's converse
direction as stated. -/
theorem cfg_edge_dropped_for_parallel_flow_edges :
    construct_flow_graph exInstrs = some exFlow
      ∧ construct_cfg exFlow = ([[0, 1], [2]], [(0, 1, true)])
      ∧ ¬ (∀ e ∈ exFlow, ∀ a b : Nat,
            a < (construct_cfg exFlow).1.length → b < (construct_cfg exFlow).1.length →
            ((construct_cfg exFlow).1.getD a []).getLastD 0 = e.1 →
            ((construct_cfg exFlow).1.getD b []).headD 0 = e.2.1 →
            (a, b, e.2.2) ∈ (construct_cfg exFlow).2) := by
  refine ⟨by rfl, by rfl, fun h => ?_⟩
  have := h (1, 2, false) (by decide) 0 1 (by decide) (by decide) (by decide) (by decide)
  exact absurd this (by decide)

/-- Witness for the amended C5 on `exInstrs`'s flow graph: the CFG edge `(0, 1, true)`
corresponds to the flow edge from block 0's last instruction to block 1's first. -/
theorem cfg_edges_correspond_to_flow_edges_witness :
    0 < (construct_cfg [(0, 1, false), (1, 2, true), (1, 2, false)]).1.length
      ∧ 1 < (construct_cfg [(0, 1, false), (1, 2, true), (1, 2, false)]).1.length
      ∧ (((construct_cfg [(0, 1, false), (1, 2, true), (1, 2, false)]).1.getD 0
            []).getLastD 0,
          ((construct_cfg [(0, 1, false), (1, 2, true), (1, 2, false)]).1.getD 1
            []).headD 0, true)
          ∈ ([(0, 1, false), (1, 2, true), (1, 2, false)] : List FlowEdge) :=
  (cfg_edges_correspond_to_flow_edges exInstrs
    [(0, 1, false), (1, 2, true), (1, 2, false)] (by rfl)).1 0 1 true (by decide)

end HermesDec
